import Mathlib

/-!
Verification of the invoice parsing and normalization engine of the
`medellin_sae` repository.  The Python sources are shallowly embedded:
strings are `String`/`List Char`, Python `Decimal` values are modelled as
exact rationals `ℚ`, fallible operations return `Option`/`Except`, and the
SQLite-backed dedup ledger is modelled as the list of its rows.
-/

namespace MedellinSae

/-! ## Python string primitives -/

/-- The default whitespace set of Python `str.strip` (ASCII subset, which is
what invoice text contains). -/
def isPySpace (c : Char) : Bool :=
  c = ' ' || c = '\t' || c = '\n' || c = '\x0d' || c = '\x0b' || c = '\x0c'

/-- Python `str.strip()` on a character list. -/
def pyStripL (cs : List Char) : List Char :=
  ((cs.dropWhile isPySpace).reverse.dropWhile isPySpace).reverse

/-- Python `str.strip()`. -/
def pyStrip (s : String) : String := ⟨pyStripL s.data⟩

/-- Python `str.lower()` (ASCII case folding, as used on product names). -/
def pyLower (s : String) : String := ⟨s.data.map Char.toLower⟩

/-- `pat` occurs as a contiguous run inside `cs`. -/
def infixOf (pat : List Char) : List Char → Bool
  | [] => pat.isPrefixOf []
  | c :: rest => pat.isPrefixOf (c :: rest) || infixOf pat rest

/-- Python `a in b` substring test. -/
def containsSub (pat s : String) : Bool := infixOf pat.data s.data

/-- Python `str.startswith`. -/
def pyStartsWith (pre s : String) : Bool := pre.data.isPrefixOf s.data

/-! ## Python `Decimal` constructor

`decimalOfChars? cs` models `decimal.Decimal(str)` on the strings this code
base feeds it: an optional sign, an integer part and an optional fractional
part, at least one digit in total.  A string outside this shape makes the
constructor raise, modelled as `none`. -/

/-- Numeric value of a string of decimal digits. -/
def digitsVal (cs : List Char) : Nat :=
  cs.foldl (fun acc c => 10 * acc + (c.toNat - '0'.toNat)) 0

/-- Model of `decimal.Decimal(s)`: `some` the exact rational value, or `none`
when the constructor would raise `InvalidOperation`. -/
def decimalOfChars? (cs : List Char) : Option ℚ :=
  let (neg, cs₁) : Bool × List Char :=
    match cs with
    | '+' :: r => (false, r)
    | '-' :: r => (true, r)
    | _ => (false, cs)
  let intPart := cs₁.takeWhile Char.isDigit
  let rest := cs₁.dropWhile Char.isDigit
  let signed : Nat → Int := fun n => if neg then -(n : Int) else (n : Int)
  match rest with
  | [] =>
      if intPart = [] then none
      else some (mkRat (signed (digitsVal intPart)) 1)
  | '.' :: frac =>
      if frac.all Char.isDigit ∧ (intPart ≠ [] ∨ frac ≠ []) then
        some (mkRat (signed (digitsVal intPart * 10 ^ frac.length + digitsVal frac))
          (10 ^ frac.length))
      else none
  | _ => none

/-- `Decimal(s)` on a `String`. -/
def decimalOfString? (s : String) : Option ℚ := decimalOfChars? s.data

/-! ## The Colombian number heuristic
(`SomexPDFParser._parse_colombian_number`, `somex_pdf_parser.py:302-372`) -/

/-- The cleaning step: `value_str.strip().replace('$','').replace(' ','').strip()`. -/
def cleanNumber (cs : List Char) : List Char :=
  pyStripL (((pyStripL cs).filter (fun c => c ≠ '$')).filter (fun c => c ≠ ' '))

/-- The characters of `s.split(sep)[1]` when `sep` occurs exactly once:
everything after the first occurrence of `sep`. -/
def afterFirst (sep : Char) (cs : List Char) : List Char :=
  (cs.dropWhile (fun c => c ≠ sep)).tail

/-- The separator (`'.'` or `','`) occurring last in the string, used to model
the `rfind` comparison of the mixed-separator branch. -/
def lastSeparator (cs : List Char) : Option Char :=
  cs.reverse.find? (fun c => c = '.' || c = ',')

/-- `Decimal(cleaned)` with the surrounding `except` clause: an unparsable
string yields `Decimal('0')`. -/
def decimalOr0 (cs : List Char) : ℚ := (decimalOfChars? cs).getD 0

/-- The branch structure of `_parse_colombian_number` after the cleaning
step (`somex_pdf_parser.py:320-368`). -/
def parseCleaned (cleaned : List Char) : ℚ :=
  if cleaned = [] then 0
  else
    let dotCount := cleaned.count '.'
    let commaCount := cleaned.count ','
    if commaCount = 0 ∧ dotCount = 0 then
      decimalOr0 cleaned
    else if commaCount > 0 ∧ dotCount = 0 then
      if commaCount = 1 ∧ (afterFirst ',' cleaned).length ≤ 2 then
        decimalOr0 (cleaned.map (fun c => if c = ',' then '.' else c))
      else
        decimalOr0 (cleaned.filter (fun c => c ≠ ','))
    else if dotCount > 0 ∧ commaCount = 0 then
      if dotCount = 1 ∧ (afterFirst '.' cleaned).length ≤ 2 then
        decimalOr0 cleaned
      else
        decimalOr0 (cleaned.filter (fun c => c ≠ '.'))
    else
      if lastSeparator cleaned = some ',' then
        decimalOr0 ((cleaned.filter (fun c => c ≠ '.')).map
          (fun c => if c = ',' then '.' else c))
      else
        decimalOr0 (cleaned.filter (fun c => c ≠ ','))

/-- Embedding of `SomexPDFParser._parse_colombian_number`
(`somex_pdf_parser.py:302-372`): the falsy-input early return, the cleaning
step, then the separator heuristic. -/
def parse_colombian_number (s : String) : ℚ :=
  if s.data = [] then 0 else parseCleaned (cleanNumber s.data)

/-! ## Kilos-in-name extraction
(`SomexProcessorService._extract_kilos_from_name`,
`somex_processor_service.py:386-413`): `re.search` of the pattern
`[Xx]\s*(\d+(?:\.\d+)?)\s*[Kk][Ii][Ll]`, modelled by a direct left-to-right
scan.  Greedy digit runs need no backtracking here because after shrinking a
digit run the next character is a digit, which can match neither `\.` nor
`\s*[Kk]`. -/

/-- `[Kk][Ii][Ll]` as a prefix test. -/
def kilPrefix : List Char → Bool
  | k :: i :: l :: _ =>
      (k = 'K' || k = 'k') && (i = 'I' || i = 'i') && (l = 'L' || l = 'l')
  | _ => false

/-- Attempt the regex body right after a matched `[Xx]`; returns the captured
number characters on success. -/
def matchAfterX (cs : List Char) : Option (List Char) :=
  let cs₁ := cs.dropWhile isPySpace
  let d₁ := cs₁.takeWhile Char.isDigit
  if d₁ = [] then none
  else
    let rest₁ := cs₁.dropWhile Char.isDigit
    let withFrac : Option (List Char) :=
      match rest₁ with
      | '.' :: r₂ =>
          let d₂ := r₂.takeWhile Char.isDigit
          if d₂ = [] then none
          else if kilPrefix ((r₂.dropWhile Char.isDigit).dropWhile isPySpace) then
            some (d₁ ++ '.' :: d₂)
          else none
      | _ => none
    match withFrac with
    | some cap => some cap
    | none => if kilPrefix (rest₁.dropWhile isPySpace) then some d₁ else none

/-- Leftmost-match search for the kilos pattern, as `re.search` performs it. -/
def searchKilos : List Char → Option (List Char)
  | [] => none
  | c :: rest =>
      if c = 'X' || c = 'x' then
        match matchAfterX rest with
        | some cap => some cap
        | none => searchKilos rest
      else searchKilos rest

/-- Embedding of `SomexProcessorService._extract_kilos_from_name`
(`somex_processor_service.py:386-413`).  The captured group always satisfies
the `Decimal` grammar, so the surrounding `except` never fires. -/
def extract_kilos_from_name (product_name : String) : Option ℚ :=
  (searchKilos product_name.data).bind decimalOfChars?

/-! ## SHA-256 (`hashlib.sha256`, FIPS 180-4)

Used by `SomexRepository.get_xml_hash` (`somex_repository.py:110-112`).
Messages are byte lists (`Nat` values below 256); 32-bit words are `Nat`
values reduced modulo `2^32` after every arithmetic step. -/

namespace Sha256

def M32 : Nat := 4294967296

def rotr (n x : Nat) : Nat := ((x >>> n) ||| (x <<< (32 - n))) % M32

def bigS0 (x : Nat) : Nat := rotr 2 x ^^^ rotr 13 x ^^^ rotr 22 x
def bigS1 (x : Nat) : Nat := rotr 6 x ^^^ rotr 11 x ^^^ rotr 25 x
def smallS0 (x : Nat) : Nat := rotr 7 x ^^^ rotr 18 x ^^^ (x >>> 3)
def smallS1 (x : Nat) : Nat := rotr 17 x ^^^ rotr 19 x ^^^ (x >>> 10)
def ch (x y z : Nat) : Nat := (x &&& y) ^^^ ((x ^^^ 4294967295) &&& z)
def maj (x y z : Nat) : Nat := (x &&& y) ^^^ (x &&& z) ^^^ (y &&& z)

/-- The 64 round constants. -/
def K : List Nat :=
  [1116352408, 1899447441, 3049323471, 3921009573, 961987163,
   1508970993, 2453635748, 2870763221, 3624381080, 310598401,
   607225278, 1426881987, 1925078388, 2162078206, 2614888103,
   3248222580, 3835390401, 4022224774, 264347078, 604807628,
   770255983, 1249150122, 1555081692, 1996064986, 2554220882,
   2821834349, 2952996808, 3210313671, 3336571891, 3584528711,
   113926993, 338241895, 666307205, 773529912, 1294757372,
   1396182291, 1695183700, 1986661051, 2177026350, 2456956037,
   2730485921, 2820302411, 3259730800, 3345764771, 3516065817,
   3600352804, 4094571909, 275423344, 430227734, 506948616,
   659060556, 883997877, 958139571, 1322822218, 1537002063,
   1747873779, 1955562222, 2024104815, 2227730452, 2361852424,
   2428436474, 2756734187, 3204031479, 3329325298]

/-- MD padding: append `0x80`, zero bytes to 56 mod 64, then the bit length
as 8 big-endian bytes. -/
def pad (msg : List Nat) : List Nat :=
  let L := msg.length
  let zeros := (64 + 55 - (L % 64)) % 64
  let bitLen := 8 * L
  msg ++ 0x80 :: List.replicate zeros 0 ++
    [(bitLen >>> 56) % 256, (bitLen >>> 48) % 256, (bitLen >>> 40) % 256,
     (bitLen >>> 32) % 256, (bitLen >>> 24) % 256, (bitLen >>> 16) % 256,
     (bitLen >>> 8) % 256, bitLen % 256]

/-- Big-endian 4-byte groups to 32-bit words. -/
def toWords : List Nat → List Nat
  | b₀ :: b₁ :: b₂ :: b₃ :: rest =>
      (((b₀ <<< 24) + (b₁ <<< 16) + (b₂ <<< 8) + b₃) % M32) :: toWords rest
  | _ => []

/-- Split a word list into 16-word blocks (fuel-driven so the kernel can
evaluate it). -/
def chunks16 : Nat → List Nat → List (List Nat)
  | 0, _ => []
  | _, [] => []
  | fuel + 1, ws => ws.take 16 :: chunks16 fuel (ws.drop 16)

/-- Extend a 16-word block with 48 scheduled words. -/
def extendW : Nat → List Nat → List Nat
  | 0, ws => ws
  | fuel + 1, ws =>
      let n := ws.length
      let next := (smallS1 (ws.getD (n - 2) 0) + ws.getD (n - 7) 0 +
        smallS0 (ws.getD (n - 15) 0) + ws.getD (n - 16) 0) % M32
      extendW fuel (ws ++ [next])

structure Hash8 where
  a : Nat
  b : Nat
  c : Nat
  d : Nat
  e : Nat
  f : Nat
  g : Nat
  h : Nat

/-- One compression round with constant `k` and scheduled word `w`. -/
def round (st : Hash8) (kw : Nat × Nat) : Hash8 :=
  let t1 := (st.h + bigS1 st.e + ch st.e st.f st.g + kw.1 + kw.2) % M32
  let t2 := (bigS0 st.a + maj st.a st.b st.c) % M32
  ⟨(t1 + t2) % M32, st.a, st.b, st.c, (st.d + t1) % M32, st.e, st.f, st.g⟩

/-- Process one 16-word block. -/
def processBlock (st : Hash8) (block : List Nat) : Hash8 :=
  let w := extendW 48 block
  let r := (K.zip w).foldl round st
  ⟨(st.a + r.a) % M32, (st.b + r.b) % M32, (st.c + r.c) % M32,
   (st.d + r.d) % M32, (st.e + r.e) % M32, (st.f + r.f) % M32,
   (st.g + r.g) % M32, (st.h + r.h) % M32⟩

def initH : Hash8 :=
  ⟨1779033703, 3144134277, 1013904242, 2773480762,
   1359893119, 2600822924, 528734635, 1541459225⟩

/-- 32-bit word to 4 big-endian bytes. -/
def wordBytes (w : Nat) : List Nat :=
  [(w >>> 24) % 256, (w >>> 16) % 256, (w >>> 8) % 256, w % 256]

/-- SHA-256 digest of a byte list, as its 32 digest bytes. -/
def digest (msg : List Nat) : List Nat :=
  let ws := toWords (pad msg)
  let st := (chunks16 ws.length ws).foldl processBlock initH
  wordBytes st.a ++ wordBytes st.b ++ wordBytes st.c ++ wordBytes st.d ++
    wordBytes st.e ++ wordBytes st.f ++ wordBytes st.g ++ wordBytes st.h

/-- Lowercase hex character of a nibble. -/
def hexChar (n : Nat) : Char :=
  (("0123456789abcdef".data).getD n '0')

/-- `hexdigest()` of a digest. -/
def hexOfBytes (bs : List Nat) : String :=
  ⟨bs.flatMap (fun b => [hexChar (b / 16), hexChar (b % 16)])⟩

end Sha256

/-! ## The dedup ledger
(`SomexRepository`, `somex_repository.py:110-154`).  The
`somex_processed_xml` table is modelled as the list of its rows; the
`UNIQUE` constraint on `xml_hash` together with `INSERT OR IGNORE` makes
`mark_xml_processed` a no-op when the hash is already present. -/

/-- `SomexRepository.get_xml_hash` (`somex_repository.py:110-112`). -/
def get_xml_hash (xml_content : List Nat) : String :=
  Sha256.hexOfBytes (Sha256.digest xml_content)

/-- One row of `somex_processed_xml` (`somex_repository.py:43-53`). -/
structure XmlRecord where
  xml_hash : String
  filename : String
  zip_filename : Option String
  invoice_number : Option String
  excel_file : Option String
deriving DecidableEq

/-- `SomexRepository.is_xml_processed` (`somex_repository.py:114-129`):
`SELECT COUNT(*) ... WHERE xml_hash = ?` is positive. -/
def is_xml_processed (table : List XmlRecord) (xml_content : List Nat) : Bool :=
  table.any (fun r => r.xml_hash = get_xml_hash xml_content)

/-- `SomexRepository.mark_xml_processed` (`somex_repository.py:131-154`):
`INSERT OR IGNORE` keyed on the unique `xml_hash`. -/
def mark_xml_processed (table : List XmlRecord) (xml_content : List Nat)
    (filename : String) (zip_filename invoice_number excel_file : Option String) :
    List XmlRecord :=
  if table.any (fun r => r.xml_hash = get_xml_hash xml_content) then table
  else table ++ [⟨get_xml_hash xml_content, filename, zip_filename,
    invoice_number, excel_file⟩]

/-- One recorded call of `mark_xml_processed`. -/
structure MarkCall where
  content : List Nat
  filename : String
  zip_filename : Option String
  invoice_number : Option String
  excel_file : Option String

/-- The ledger produced by a sequence of `mark_xml_processed` calls starting
from an empty table. -/
def applyMarks (calls : List MarkCall) : List XmlRecord :=
  calls.foldl (fun t c => mark_xml_processed t c.content c.filename
    c.zip_filename c.invoice_number c.excel_file) []

/-! ## XML trees and `lxml.etree.fromstring`

Elements carry lxml-style expanded tags (`{namespace-uri}localname`),
attributes, the text before the first child, and the child list.  CDATA
sections are spliced into the surrounding text exactly as lxml does, and
`xmlns` declarations are resolved and dropped from the attribute list. -/

inductive XElem where
  | node (tag : String) (attrs : List (String × String)) (text : Option String)
      (children : List XElem)

def XElem.tag : XElem → String
  | .node t _ _ _ => t

def XElem.attrs : XElem → List (String × String)
  | .node _ a _ _ => a

def XElem.text : XElem → Option String
  | .node _ _ t _ => t

def XElem.children : XElem → List XElem
  | .node _ _ _ c => c

/-- `element.get(name, default)`. -/
def XElem.getAttr (e : XElem) (name dflt : String) : String :=
  match e.attrs.find? (fun p => p.1 = name) with
  | some p => p.2
  | none => dflt

mutual

/-- All proper descendants of an element, in document order. -/
def descendants : XElem → List XElem
  | .node _ _ _ cs => descendantsList cs

def descendantsList : List XElem → List XElem
  | [] => []
  | c :: rest => c :: (descendants c ++ descendantsList rest)

end

/-- One `ElementPath` step: `(true, q)` is a descendant step (after `.//` or
`//`), `(false, q)` a child step. -/
abbrev PathStep := Bool × String

/-- Candidate elements of one step, in document order. -/
def stepPool (step : PathStep) (e : XElem) : List XElem :=
  if step.1 then (descendants e).filter (fun c => c.tag = step.2)
  else e.children.filter (fun c => c.tag = step.2)

/-- Continue a partially matched path from element `c`, first full match in
lxml's nested-iterator order. -/
def findPathFrom (c : XElem) (path : List PathStep) : Option XElem :=
  match path with
  | [] => some c
  | step :: rest => (stepPool step c).findSome? (fun d => findPathFrom d rest)

/-- `element.find(path, ns)` for a non-empty relative path. -/
def findPath (e : XElem) (path : List PathStep) : Option XElem :=
  match path with
  | [] => none
  | step :: rest => (stepPool step e).findSome? (fun c => findPathFrom c rest)

def findallPathFrom (c : XElem) (path : List PathStep) : List XElem :=
  match path with
  | [] => [c]
  | step :: rest => (stepPool step c).flatMap (fun d => findallPathFrom d rest)

/-- `element.findall(path, ns)`, in document order. -/
def findallPath (e : XElem) (path : List PathStep) : List XElem :=
  match path with
  | [] => []
  | step :: rest => (stepPool step e).flatMap (fun c => findallPathFrom c rest)

/-! ### The `fromstring` parser (fuel-driven recursive descent) -/

namespace Xml

def isNameChar (c : Char) : Bool :=
  c.isAlphanum || c = '_' || c = '-' || c = '.' || c = ':'

/-- Decode the predefined and numeric character references. -/
def decodeEntities : Nat → List Char → Option (List Char)
  | 0, _ => none
  | _, [] => some []
  | fuel + 1, '&' :: rest =>
      let after : List Char → Char → Option (List Char) := fun r c =>
        (decodeEntities fuel r).map (fun d => c :: d)
      match rest with
      | 'l' :: 't' :: ';' :: r => after r '<'
      | 'g' :: 't' :: ';' :: r => after r '>'
      | 'a' :: 'm' :: 'p' :: ';' :: r => after r '&'
      | 'q' :: 'u' :: 'o' :: 't' :: ';' :: r => after r '"'
      | 'a' :: 'p' :: 'o' :: 's' :: ';' :: r => after r '\x27'
      | '#' :: r =>
          let ds := r.takeWhile Char.isDigit
          match r.dropWhile Char.isDigit with
          | ';' :: r₂ =>
              if ds ≠ [] ∧ digitsVal ds < 0xd800 ∧ 0 < digitsVal ds then
                after r₂ (Char.ofNat (digitsVal ds))
              else none
          | _ => none
      | _ => none
  | fuel + 1, c :: rest => (decodeEntities fuel rest).map (fun d => c :: d)

/-- Attribute list scanning: returns raw `(name, value)` pairs and the rest,
which starts with `/>` or `>`. -/
def parseAttrs : Nat → List Char → Option (List (List Char × List Char) × List Char)
  | 0, _ => none
  | fuel + 1, cs =>
      let cs := cs.dropWhile isPySpace
      match cs with
      | [] => none
      | '/' :: _ => some ([], cs)
      | '>' :: _ => some ([], cs)
      | c :: _ =>
          if isNameChar c ∧ ¬ c.isDigit then
            let name := cs.takeWhile isNameChar
            let cs₁ := (cs.dropWhile isNameChar).dropWhile isPySpace
            match cs₁ with
            | '=' :: cs₂ =>
                match cs₂.dropWhile isPySpace with
                | q :: cs₃ =>
                    if q = '"' ∨ q = '\x27' then
                      let raw := cs₃.takeWhile (fun d => d ≠ q)
                      match cs₃.dropWhile (fun d => d ≠ q) with
                      | _ :: cs₄ =>
                          if '<' ∈ raw then none
                          else
                            match decodeEntities (raw.length + 1) raw with
                            | some v =>
                                (parseAttrs fuel cs₄).map
                                  (fun p => ((name, v) :: p.1, p.2))
                            | none => none
                      | [] => none
                    else none
                | [] => none
            | _ => none
          else none

/-- Split a raw qualified name at its first colon. -/
def splitColon (cs : List Char) : Option (List Char × List Char) :=
  if ':' ∈ cs then
    some (cs.takeWhile (fun c => c ≠ ':'), (cs.dropWhile (fun c => c ≠ ':')).tail)
  else none

/-- lxml-style expanded tag. -/
def qname (uri loc : String) : String := "\x7b" ++ uri ++ "\x7d" ++ loc

/-- Resolve a raw element name against the namespace scope
(prefix ↦ URI, `""` for the default namespace). -/
def resolveTag (scope : List (String × String)) (raw : List Char) : Option String :=
  match splitColon raw with
  | some (p, loc) =>
      match scope.lookup (⟨p⟩ : String) with
      | some uri => some (qname uri ⟨loc⟩)
      | none => none
  | none =>
      match scope.lookup "" with
      | some uri => if uri = "" then some ⟨raw⟩ else some (qname uri ⟨raw⟩)
      | none => some ⟨raw⟩

/-- Resolve a raw attribute name (the default namespace does not apply). -/
def resolveAttrName (scope : List (String × String)) (raw : List Char) :
    Option String :=
  match splitColon raw with
  | some (p, loc) =>
      match scope.lookup (⟨p⟩ : String) with
      | some uri => some (qname uri ⟨loc⟩)
      | none => none
  | none => some ⟨raw⟩

/-- The `xmlns`/`xmlns:p` declarations of a raw attribute list. -/
def nsDecls (raw : List (List Char × List Char)) : List (String × String) :=
  raw.filterMap (fun p =>
    if p.1 = "xmlns".data then some ("", (⟨p.2⟩ : String))
    else
      match splitColon p.1 with
      | some (pre, rest) =>
          if pre = "xmlns".data then some ((⟨rest⟩ : String), (⟨p.2⟩ : String))
          else none
      | none => none)

/-- Is a raw attribute name a namespace declaration? -/
def isXmlnsName (raw : List Char) : Bool :=
  raw = "xmlns".data ||
    (match splitColon raw with
     | some (pre, _) => pre = "xmlns".data
     | none => false)

/-- Attributes that are not namespace declarations, names resolved. -/
def plainAttrs (scope : List (String × String))
    (raw : List (List Char × List Char)) : Option (List (String × String)) :=
  match raw with
  | [] => some []
  | p :: rest =>
      if isXmlnsName p.1 then plainAttrs scope rest
      else
        match resolveAttrName scope p.1 with
        | some n => (plainAttrs scope rest).map (fun l => (n, (⟨p.2⟩ : String)) :: l)
        | none => none

/-- Split a CDATA body at the first `]]>`: the raw content and the rest. -/
def cdataSplit : Nat → List Char → Option (List Char × List Char)
  | 0, _ => none
  | _, ']' :: ']' :: '>' :: rest => some ([], rest)
  | fuel + 1, c :: rest => (cdataSplit fuel rest).map (fun p => (c :: p.1, p.2))
  | _, [] => none

/-- Merge a leading text chunk with the text collected after it, `none` when
the whole run is empty (lxml uses `None`, never `""`). -/
def joinText (chunk : List Char) (after : Option String) : Option String :=
  let s := (⟨chunk⟩ : String) ++ after.getD ""
  if s = "" then none else some s

mutual

/-- Parse one element starting at `<`. -/
def parseElement (fuel : Nat) (scope : List (String × String)) (cs : List Char) :
    Option (XElem × List Char) :=
  match fuel, cs with
  | fuel + 1, '<' :: cs₁ =>
      let rawName := cs₁.takeWhile isNameChar
      if rawName = [] then none
      else
        match parseAttrs (cs₁.length + 1) (cs₁.dropWhile isNameChar) with
        | none => none
        | some (rawAttrs, cs₂) =>
            let scope' := nsDecls rawAttrs ++ scope
            match resolveTag scope' rawName, plainAttrs scope' rawAttrs with
            | some tag, some attrs =>
                match cs₂ with
                | '/' :: '>' :: cs₃ => some (.node tag attrs none [], cs₃)
                | '>' :: cs₃ =>
                    match parseContent fuel scope' cs₃ with
                    | none => none
                    | some (text, children, cs₄) =>
                        match cs₄ with
                        | '<' :: '/' :: cs₅ =>
                            if rawName.isPrefixOf cs₅ then
                              match (cs₅.drop rawName.length).dropWhile isPySpace with
                              | '>' :: cs₆ =>
                                  some (.node tag attrs text children, cs₆)
                              | _ => none
                            else none
                        | _ => none
                | _ => none
            | _, _ => none
  | _, _ => none

/-- Parse element content up to the closing `</`, returning the text before
the first child and the children (text after a child — an lxml tail — is
consumed and discarded). -/
def parseContent (fuel : Nat) (scope : List (String × String)) (cs : List Char) :
    Option (Option String × List XElem × List Char) :=
  match fuel with
  | 0 => none
  | fuel + 1 =>
      match cs with
      | [] => none
      | '<' :: '/' :: rest => some (none, [], '<' :: '/' :: rest)
      | '<' :: '!' :: cs₁ =>
          if "[CDATA[".data.isPrefixOf cs₁ then
            match cdataSplit (cs₁.length + 1) (cs₁.drop 7) with
            | none => none
            | some (raw, rest) =>
                match parseContent fuel scope rest with
                | none => none
                | some (text, children, cs₂) =>
                    some (joinText raw text, children, cs₂)
          else none
      | '<' :: cs₁ =>
          match parseElement fuel scope ('<' :: cs₁) with
          | none => none
          | some (child, cs₂) =>
              match parseContent fuel scope cs₂ with
              | none => none
              | some (_, children, cs₃) => some (none, child :: children, cs₃)
      | _ =>
          let raw := cs.takeWhile (fun c => c ≠ '<')
          match decodeEntities (raw.length + 1) raw with
          | none => none
          | some txt =>
              match parseContent fuel scope (cs.dropWhile (fun c => c ≠ '<')) with
              | none => none
              | some (text, children, cs₂) => some (joinText txt text, children, cs₂)

end

/-- Skip to just past the closing `?>` of a processing instruction. -/
def skipPIEnd : Nat → List Char → Option (List Char)
  | 0, _ => none
  | _, '?' :: '>' :: rest => some rest
  | fuel + 1, _ :: rest => skipPIEnd fuel rest
  | _, [] => none

/-- Skip an `<?xml … ?>` declaration if present. -/
def skipProlog (cs : List Char) : Option (List Char) :=
  if "<?xml".data.isPrefixOf cs then skipPIEnd (cs.length + 1) (cs.drop 5)
  else some cs

end Xml

/-- Embedding of `lxml.etree.fromstring` on the XML subset this code base
exchanges (prolog, namespaced elements and attributes, text, CDATA, character
references): `some` the root element, `none` when lxml would raise. -/
def fromstring (s : String) : Option XElem :=
  let cs := s.data.dropWhile isPySpace
  match Xml.skipProlog cs with
  | none => none
  | some cs₁ =>
      let cs₂ := cs₁.dropWhile isPySpace
      match Xml.parseElement (2 * cs₂.length + 16) [] cs₂ with
      | some (e, rest) => if rest.dropWhile isPySpace = [] then some e else none
      | none => none

/-! ## UBL namespaces, `_get_text`, `_get_date` -/

def nsCac : String :=
  "urn:oasis:names:specification:ubl:schema:xsd:CommonAggregateComponents-2"
def nsCbc : String :=
  "urn:oasis:names:specification:ubl:schema:xsd:CommonBasicComponents-2"

/-- `cac:`-qualified child step. -/
def cacC (loc : String) : PathStep := (false, Xml.qname nsCac loc)
/-- `cac:`-qualified descendant step (after `.//` or `//`). -/
def cacD (loc : String) : PathStep := (true, Xml.qname nsCac loc)
/-- `cbc:`-qualified child step. -/
def cbcC (loc : String) : PathStep := (false, Xml.qname nsCbc loc)
/-- `cbc:`-qualified descendant step. -/
def cbcD (loc : String) : PathStep := (true, Xml.qname nsCbc loc)

/-- `_get_text` (`ubl_xml_parser.py:250-258`, identically
`somex_processor_service.py:559-567`): stripped text of the first match, or
`""`. -/
def get_text (el : XElem) (path : List PathStep) : String :=
  match findPath el path with
  | none => ""
  | some r =>
      match r.text with
      | none => ""
      | some t => if t = "" then "" else pyStrip t

/-- `_get_text` applied to a possibly absent element (`if element is None`). -/
def get_text_opt (el : Option XElem) (path : List PathStep) : String :=
  match el with
  | none => ""
  | some e => get_text e path

/-- Gregorian month length, for the `datetime` range check. -/
def daysInMonth (y m : Nat) : Nat :=
  if m = 2 then (if y % 4 = 0 ∧ (y % 100 ≠ 0 ∨ y % 400 = 0) then 29 else 28)
  else if m = 4 ∨ m = 6 ∨ m = 9 ∨ m = 11 then 30
  else 31

/-- Model of `datetime.strptime(s, '%Y-%m-%d').date()`: a 4-digit year, a one-
or two-digit month and day, in calendar range. -/
def parseDateYmd (s : String) : Option (Nat × Nat × Nat) :=
  match s.data.splitOn '-' with
  | [ys, ms, ds] =>
      if ys.all Char.isDigit ∧ ys.length = 4 ∧
          ms.all Char.isDigit ∧ 1 ≤ ms.length ∧ ms.length ≤ 2 ∧
          ds.all Char.isDigit ∧ 1 ≤ ds.length ∧ ds.length ≤ 2 then
        let y := digitsVal ys
        let m := digitsVal ms
        let d := digitsVal ds
        if 1 ≤ m ∧ m ≤ 12 ∧ 1 ≤ d ∧ d ≤ daysInMonth y m then some (y, m, d)
        else none
      else none
  | _ => none

/-- `_get_date` (`ubl_xml_parser.py:260-268`): parse failures are swallowed to
`None`. -/
def get_date (el : XElem) (path : List PathStep) : Option (Nat × Nat × Nat) :=
  let s := get_text el path
  if s = "" then none else parseDateYmd s

/-! ## Canonical entities (`invoice.py`, `invoice_item.py`) -/

/-- `InvoiceItem` (`invoice_item.py`). -/
structure InvoiceItem where
  product_name : String
  product_code : String
  subyacente_code : String
  quantity : ℚ
  unit_of_measure : String
  unit_price : ℚ
  tax_percentage : ℚ
  description : Option String
  weight : Option ℚ
deriving DecidableEq

/-- `Invoice` (`invoice.py`). -/
structure Invoice where
  invoice_number : String
  invoice_date : Option (Nat × Nat × Nat)
  payment_date : Option (Nat × Nat × Nat)
  seller_nit : String
  seller_name : String
  buyer_nit : String
  buyer_name : String
  municipality : String
  items : List InvoiceItem
  description : Option String
  currency : String
  active : String
  invoice_active : String
  warehouse : Option String
  incentive : Option String
  principal_vc : String
deriving DecidableEq

/-! ## Pulgarin inventory (`pulgarin_inventory_service.py`) -/

/-- `PulgarinInventoryItem` (`pulgarin_inventory_service.py:9-18`). -/
structure PulgarinInventoryItem where
  codigo : String
  descripcion : String
  peso : Option ℚ
  unidad_medida : String
  descripcion_normalizada : String
deriving DecidableEq

/-- The `PulgarinInventoryItem` constructor, which computes the normalized key
(`descripcion.strip().lower() if descripcion else ""`). -/
def mkPulgarinItem (codigo descripcion : String) (peso : Option ℚ)
    (unidad_medida : String) : PulgarinInventoryItem :=
  ⟨codigo, descripcion, peso, unidad_medida,
   if descripcion = "" then "" else pyLower (pyStrip descripcion)⟩

/-- The in-memory inventory dict, keyed by normalized description. -/
abbrev PulgarinInventory := List (String × PulgarinInventoryItem)

/-- `dict.__setitem__`: replace the entry in place, or append a fresh one. -/
def dictSet (inv : PulgarinInventory) (key : String)
    (item : PulgarinInventoryItem) : PulgarinInventory :=
  if inv.any (fun p => p.1 = key) then
    inv.map (fun p => if p.1 = key then (key, item) else p)
  else inv ++ [(key, item)]

/-- `str(cell or '').strip()` on a spreadsheet cell (`None` ↦ `""`). -/
def cellStr (cell : Option String) : String := pyStrip (cell.getD "")

/-- One inventory spreadsheet row after the header-driven column mapping:
the raw `Codigo`, `Descripcion`, `PESO` and `U/M` cells. -/
structure InventoryRow where
  codigo : Option String
  descripcion : Option String
  peso : Option String
  um : Option String

/-- The body of the row loop of `import_from_excel`
(`pulgarin_inventory_service.py:72-106`): `None` when the row is skipped for
an empty description, otherwise the constructed item.  A weight that fails to
parse (after `,`→`.`) is logged and left `None`. -/
def rowItem (r : InventoryRow) : Option PulgarinInventoryItem :=
  let descripcion := cellStr r.descripcion
  if descripcion = "" then none
  else
    let pesoStr := cellStr r.peso
    let peso : Option ℚ :=
      if pesoStr = "" then none
      else decimalOfChars?
        (pesoStr.data.map (fun c => if c = ',' then '.' else c))
    some (mkPulgarinItem (cellStr r.codigo) descripcion peso (cellStr r.um))

/-- `PulgarinInventoryService.import_from_excel`
(`pulgarin_inventory_service.py:28-115`) after the column mapping: the
inventory is cleared, each row with a non-empty description is indexed by its
normalized description (later rows overwrite earlier ones), and the returned
count increments once per indexed row. -/
def importStep (acc : PulgarinInventory × Nat) (r : InventoryRow) :
    PulgarinInventory × Nat :=
  match rowItem r with
  | none => acc
  | some item => (dictSet acc.1 item.descripcion_normalizada item, acc.2 + 1)

def import_from_excel (rows : List InventoryRow) : PulgarinInventory × Nat :=
  rows.foldl importStep ([], 0)

/-- `PulgarinInventoryService.find_by_description`
(`pulgarin_inventory_service.py:117-130`). -/
def find_by_description (inv : PulgarinInventory) (product_name : String) :
    Option PulgarinInventoryItem :=
  let normalized := if product_name = "" then "" else pyLower (pyStrip product_name)
  (inv.find? (fun p => p.1 = normalized)).map (fun p => p.2)

/-- `PulgarinInventoryService.get_weight`
(`pulgarin_inventory_service.py:132-143`). -/
def get_weight (inv : PulgarinInventory) (product_name : String) : Option ℚ :=
  (find_by_description inv product_name).bind (fun item => item.peso)

/-- `PulgarinInventoryService.get_unit_of_measure`
(`pulgarin_inventory_service.py:145-156`). -/
def get_unit_of_measure (inv : PulgarinInventory) (product_name : String) :
    Option String :=
  (find_by_description inv product_name).map (fun item => item.unidad_medida)

/-! ## The Standard-UBL parser (`UBLXMLParser`, `ubl_xml_parser.py`) -/

/-- `UBLXMLParser.UNIT_CODE_MAP` (`ubl_xml_parser.py:37-47`). -/
def UNIT_CODE_MAP : List (String × String) :=
  [("94", "KG"), ("KGM", "KG"), ("GRM", "GR"), ("LTR", "LT"), ("MTR", "MT"),
   ("H87", "UN"), ("EA", "UN"), ("NIU", "UN"), ("C62", "UN")]

/-- `self.UNIT_CODE_MAP.get(unit_code, unit_code)`. -/
def unitCodeLookup (code : String) : String :=
  match UNIT_CODE_MAP.find? (fun p => p.1 = code) with
  | some p => p.2
  | none => code

/-- `Decimal(s) if s else Decimal('0')`, raising (`.error`) on a bad string. -/
def decimalOrRaise (s : String) : Except Unit ℚ :=
  if s = "" then .ok 0
  else
    match decimalOfChars? s.data with
    | some q => .ok q
    | none => .error ()

/-- The `ItemProperty` weight loop (`ubl_xml_parser.py:214-220`): take the
`Value` of the first property whose `Name` contains "peso"/"weight" and whose
`Value` text is non-empty; a matching property with empty `Value` re-assigns
the empty string and the scan continues. -/
def weightPropLoop : List XElem → String → String
  | [], acc => acc
  | prop :: rest, acc =>
      let name := get_text prop [cbcD "Name"]
      if name ≠ "" ∧ (containsSub "peso" (pyLower name) ∨
          containsSub "weight" (pyLower name)) then
        let ws := get_text prop [cbcD "Value"]
        if ws ≠ "" then ws else weightPropLoop rest ws
      else weightPropLoop rest acc

/-- The product name of a Standard-UBL line (`Description`, fallback `Name`,
`ubl_xml_parser.py:162-165`). -/
def ublProductName (line : XElem) : String :=
  let product_name := get_text line [cacD "Item", cbcC "Description"]
  if product_name = "" then get_text line [cacD "Item", cbcC "Name"]
  else product_name

/-- The raw `unitCode` attribute of the first `InvoicedQuantity`
(`ubl_xml_parser.py:174-175`). -/
def ublUnitCode (line : XElem) : String :=
  match findPath line [cbcD "InvoicedQuantity"] with
  | some el => el.getAttr "unitCode" ""
  | none => ""

/-- The tax-percent string with its fallback (`ubl_xml_parser.py:185-189`). -/
def ublTaxPercentStr (line : XElem) : String :=
  let s := get_text line [cacD "TaxTotal", cacC "TaxSubtotal", cacC "TaxCategory",
    cbcC "Percent"]
  if s = "" then get_text line [cacD "TaxTotal", cacC "TaxSubtotal", cbcC "Percent"]
  else s

/-- The weight lookup of `_parse_line_item` before the XML fallback
(`ubl_xml_parser.py:196-198`). -/
def ublInventoryWeight (inventory_service : Option PulgarinInventory)
    (product_name : String) : Option ℚ :=
  match inventory_service with
  | some svc => if product_name ≠ "" then get_weight svc product_name else none
  | none => none

/-- The XML weight fallback of `_parse_line_item`
(`ubl_xml_parser.py:206-226`): `Weight`, then `NetWeight`, then the
`ItemProperty` scan; the final `Decimal` failure is swallowed to `None`. -/
def ublXmlWeight (line : XElem) : Option ℚ :=
  let ws₀ := get_text line [cacD "Item", cbcC "Weight"]
  let ws₁ := if ws₀ = "" then get_text line [cacD "Item", cbcC "NetWeight"]
    else ws₀
  let ws₂ :=
    if ws₁ = "" then
      weightPropLoop (findallPath line [cacD "Item", cacC "ItemProperty"]) ""
    else ws₁
  if ws₂ = "" then none else decimalOfChars? ws₂.data

/-- `UBLXMLParser._parse_line_item` (`ubl_xml_parser.py:158-240`).  A failed
`Decimal` on quantity, price or tax re-raises as a `RuntimeError` (`.error`);
the weight `Decimal` has its own `try` and falls back to `None`. -/
def parse_line_item (inventory_service : Option PulgarinInventory)
    (line : XElem) : Except Unit InvoiceItem :=
  let product_name := ublProductName line
  let product_code :=
    get_text line [cacD "Item", cacC "SellersItemIdentification", cbcC "ID"]
  match decimalOrRaise (get_text line [cbcD "InvoicedQuantity"]),
      decimalOrRaise (get_text line [cacD "Price", cbcC "PriceAmount"]),
      decimalOrRaise (ublTaxPercentStr line) with
  | .ok quantity, .ok unit_price, .ok tax_percentage =>
      let unit_of_measure := unitCodeLookup (ublUnitCode line)
      let weight₀ := ublInventoryWeight inventory_service product_name
      let unit_of_measure :=
        if (weight₀.getD 0) ≠ 0 then
          match inventory_service with
          | some svc =>
              match get_unit_of_measure svc product_name with
              | some u => if u ≠ "" then u else unit_of_measure
              | none => unit_of_measure
          | none => unit_of_measure
        else unit_of_measure
      let weight : Option ℚ :=
        match weight₀ with
        | some w => some w
        | none => ublXmlWeight line
      .ok ⟨product_name, product_code, "SPN-1", quantity, unit_of_measure,
        unit_price, tax_percentage, none, weight⟩
  | _, _, _ => .error ()

/-- `invoice_xml[9:-3]`, stripping `<![CDATA[` and `]]>`. -/
def stripCdataMarkers (s : String) : String :=
  let cs := s.data.drop 9
  ⟨cs.take (cs.length - 3)⟩

/-- The line loop of `parse_invoice` (`ubl_xml_parser.py:146-151`): items in
document order; the first line exception aborts the whole parse (and `if
item:` is always true on an `InvoiceItem` object, so every parsed item is
appended). -/
def parseLines (inventory_service : Option PulgarinInventory) :
    List XElem → Except Unit (List InvoiceItem)
  | [] => .ok []
  | line :: rest =>
      match parse_line_item inventory_service line with
      | .error e => .error e
      | .ok item =>
          match parseLines inventory_service rest with
          | .error e => .error e
          | .ok items => .ok (item :: items)

/-- The header-and-items extraction of `UBLXMLParser.parse_invoice` applied to
an already parsed tree (`ubl_xml_parser.py:69-153`). -/
def parse_ubl_tree (inventory_service : Option PulgarinInventory)
    (tree : XElem) : Except Unit Invoice := do
  let invoice_number := get_text tree [cbcD "ID"]
  let invoice_date := get_date tree [cbcD "IssueDate"]
  let payment_date :=
    match get_date tree [cbcD "PaymentDueDate"] with
    | some d => some d
    | none => get_date tree [cbcD "DueDate"]
  let municipality₀ := get_text tree [cacD "AccountingCustomerParty",
    cacC "Party", cacC "PhysicalLocation", cacC "Address", cbcC "CityName"]
  let municipality :=
    if municipality₀ = "" then
      get_text tree [cacD "DeliveryLocation", cbcD "CityName"]
    else municipality₀
  let description := get_text tree [cbcD "Note"]
  let currency_code := get_text tree [cbcD "DocumentCurrencyCode"]
  let currency :=
    if currency_code = "COP" then "1"
    else if currency_code = "USD" then "2"
    else if currency_code = "EUR" then "3"
    else "1"
  let seller_party := findPath tree [cacD "AccountingSupplierParty", cacC "Party"]
  let seller_nit := get_text_opt seller_party [cacD "PartyTaxScheme", cbcC "CompanyID"]
  let seller_name₀ := get_text_opt seller_party [cacD "PartyName", cbcC "Name"]
  let seller_name :=
    if seller_name₀ = "" then
      get_text_opt seller_party [cacD "PartyLegalEntity", cbcC "RegistrationName"]
    else seller_name₀
  let buyer_party := findPath tree [cacD "AccountingCustomerParty", cacC "Party"]
  let buyer_nit₀ := get_text_opt buyer_party [cbcD "ID"]
  let buyer_nit :=
    if buyer_nit₀ = "" then
      get_text_opt buyer_party [cacD "PartyTaxScheme", cbcC "CompanyID"]
    else buyer_nit₀
  let buyer_name₀ := get_text_opt buyer_party [cacD "PartyLegalEntity",
    cbcC "RegistrationName"]
  let buyer_name :=
    if buyer_name₀ = "" then get_text_opt buyer_party [cacD "PartyName", cbcC "Name"]
    else buyer_name₀
  let items ← parseLines inventory_service (findallPath tree [cacD "InvoiceLine"])
  pure ⟨invoice_number, invoice_date, payment_date, seller_nit, seller_name,
    buyer_nit, buyer_name, municipality, items,
    (if description = "" then none else some description),
    currency, "1", "1", none, none, "V"⟩

/-- `UBLXMLParser.parse_invoice` (`ubl_xml_parser.py:49-156`), from the raw
document string: any internal failure re-raises as `RuntimeError` (`.error`). -/
def ubl_parse_invoice (inventory_service : Option PulgarinInventory)
    (xml_content : String) : Except Unit Invoice := do
  match fromstring xml_content with
  | none => .error ()
  | some tree₀ =>
      let tree ←
        if containsSub "AttachedDocument" tree₀.tag then
          match findPath tree₀ [cacD "Attachment", cacC "ExternalReference",
              cbcC "Description"] with
          | some cdata_element =>
              match cdata_element.text with
              | some t =>
                  if t ≠ "" then
                    let invoice_xml₀ := pyStrip t
                    let invoice_xml :=
                      if pyStartsWith "<![CDATA[" invoice_xml₀ then
                        stripCdataMarkers invoice_xml₀
                      else invoice_xml₀
                    match fromstring invoice_xml with
                    | some t₂ => pure t₂
                    | none => .error ()
                  else pure tree₀
              | none => pure tree₀
          | none => pure tree₀
        else pure tree₀
      parse_ubl_tree inventory_service tree

/-- `XMLParserService.parse_invoice_xml` (`xml_parser_service.py:15-30`): the
application layer catches every parser exception and returns `None`. -/
def xml_parser_service_parse (inventory_service : Option PulgarinInventory)
    (xml_content : String) : Option Invoice :=
  match ubl_parse_invoice inventory_service xml_content with
  | .ok invoice => some invoice
  | .error _ => none

/-! ## The Somex-UBL parser (`SomexProcessorService`,
`somex_processor_service.py`) -/

/-- One parsed Somex line-item dictionary
(`somex_processor_service.py:488-498`). -/
structure SomexItem where
  product_name : String
  product_code : String
  quantity : ℚ
  quantity_original : ℚ
  quantity_adjusted : ℚ
  unit_of_measure : String
  unit_price : ℚ
  tax_percentage : ℚ
  taxable_amount : ℚ
deriving DecidableEq

/-- The parsed Somex invoice dictionary (`somex_processor_service.py:340-350`). -/
structure SomexInvoice where
  invoice_number : String
  invoice_date : String
  payment_date : String
  buyer_nit : String
  buyer_name : String
  seller_nit : String
  seller_name : String
  municipality : String
  items : List SomexItem
deriving DecidableEq

/-- The product name of a Somex line (`Note`, fallback `Item/Description`,
`somex_processor_service.py:427-430`). -/
def somexProductName (line : XElem) : String :=
  let product_name := get_text line [cbcD "Note"]
  if product_name = "" then get_text line [cacD "Item", cbcC "Description"]
  else product_name

/-- `Decimal(s) if s else Decimal('0')` under the surrounding `except`
(failure kills the line, `somex_processor_service.py:444-446`). -/
def decimalOrNone (s : String) : Option ℚ :=
  if s = "" then some 0 else decimalOfChars? s.data

/-- `SomexProcessorService._parse_somex_line_item`
(`somex_processor_service.py:415-502`): a failed `Decimal` is caught and the
whole line yields `None`; an extracted kilos value is applied only when
truthy (`if kilos:`), i.e. present and non-zero. -/
def parse_somex_line_item (line : XElem) : Option SomexItem :=
  let product_name := somexProductName line
  let product_code₀ :=
    get_text line [cacD "Item", cacC "StandardItemIdentification", cbcC "ID"]
  let product_code :=
    if product_code₀ = "" then
      get_text line [cacD "Item", cacC "SellersItemIdentification", cbcC "ID"]
    else product_code₀
  match decimalOrNone (get_text line [cbcD "InvoicedQuantity"]),
      decimalOrNone (get_text line [cacD "TaxTotal", cacC "TaxSubtotal",
        cbcC "TaxableAmount"]),
      decimalOrNone (get_text line [cacD "TaxTotal", cacC "TaxSubtotal",
        cacC "TaxCategory", cbcC "Percent"]) with
  | some quantity_original, some taxable_amount, some tax_percentage =>
      let kilos := extract_kilos_from_name product_name
      let quantity_adjusted :=
        if (kilos.getD 0) ≠ 0 then quantity_original * kilos.getD 0
        else quantity_original
      let unit_price :=
        if quantity_adjusted > 0 then taxable_amount / quantity_adjusted else 0
      some ⟨product_name, (if product_code = "" then "SPN-1" else product_code),
        quantity_adjusted, quantity_original, quantity_adjusted, "KG", unit_price,
        tax_percentage, taxable_amount⟩
  | _, _, _ => none

/-- `SomexProcessorService._parse_somex_invoice`
(`somex_processor_service.py:289-384`): line items that fail to parse are
skipped (`if item:`), never fatal. -/
def parse_somex_invoice (tree : XElem) : Option SomexInvoice :=
  let invoice_number₀ := get_text tree [cacD "OrderReference", cbcC "ID"]
  let invoice_number :=
    if invoice_number₀ = "" then get_text tree [cbcD "ID"] else invoice_number₀
  let invoice_date := get_text tree [cbcD "IssueDate"]
  let payment_date₀ := get_text tree [cbcD "PaymentDueDate"]
  let payment_date :=
    if payment_date₀ = "" then get_text tree [cbcD "DueDate"] else payment_date₀
  let buyer_party := findPath tree [cacD "ReceiverParty"]
  let buyer_nit := get_text_opt buyer_party [cacD "PartyTaxScheme", cbcC "CompanyID"]
  let buyer_name :=
    get_text_opt buyer_party [cacD "PartyTaxScheme", cbcC "RegistrationName"]
  let municipality := get_text_opt buyer_party [cacD "PartyTaxScheme",
    cacC "RegistrationAddress", cbcC "CityName"]
  let items := (findallPath tree [cacD "InvoiceLine"]).filterMap
    parse_somex_line_item
  some ⟨invoice_number, invoice_date, payment_date, buyer_nit, buyer_name,
    "800221724", "SOMEX S.A.S.", municipality, items⟩

/-- `SomexProcessorService._extract_embedded_invoice`
(`somex_processor_service.py:235-287`): locate the `Description` text,
require it truthy, require the stripped text to start with `<?xml` or `<` and
to contain the token `Invoice`, then re-parse it. -/
def extract_embedded_invoice (attached_doc_tree : XElem) : Option XElem :=
  match findPath attached_doc_tree
      [cacD "Attachment", cacC "ExternalReference", cbcC "Description"] with
  | none => none
  | some description_elem =>
      match description_elem.text with
      | none => none
      | some t =>
          if t = "" then none
          else
            let embedded_xml := pyStrip t
            if ¬ (pyStartsWith "<?xml" embedded_xml) ∧
                ¬ (pyStartsWith "<" embedded_xml) then none
            else if ¬ containsSub "Invoice" embedded_xml then none
            else fromstring embedded_xml

/-- `SomexProcessorService.parse_invoice_xml`
(`somex_processor_service.py:194-233`): any exception (including a parse
failure of the raw bytes) is caught and `None` returned. -/
def somex_parse_invoice_xml (xml_content : String) : Option SomexInvoice :=
  match fromstring xml_content with
  | none => none
  | some tree =>
      if containsSub "AttachedDocument" tree.tag then
        match extract_embedded_invoice tree with
        | none => none
        | some inner => parse_somex_invoice inner
      else parse_somex_invoice tree

/-! ## PDF product-table rows (`SomexPDFParser._extract_product_table`,
`somex_pdf_parser.py:374-489`) -/

/-- One parsed PDF row dictionary (`somex_pdf_parser.py:459-471`). -/
structure PdfItem where
  product_code : String
  product_name : String
  quantity_original : ℚ
  quantity_adjusted : ℚ
  unit_of_measure : String
  unit_price : ℚ
  tax_percentage : ℚ
  line_total : ℚ
  quantity : ℚ
  taxable_amount : ℚ
  tax_amount : ℚ
deriving DecidableEq

/-- The column map produced by `_map_table_columns`
(`somex_pdf_parser.py:491-533`); `none` models an absent key, read through
`col_map.get(key, default)`. -/
structure ColMap where
  referencia : Option Nat
  descripcion : Option Nat
  cant_bultos : Option Nat
  cant_kilos : Option Nat
  valor_total : Option Nat
  iva_percent : Option Nat

/-- `str(cell or default).strip()` on a table cell (`None` and `""` both fall
back to the default). -/
def pdfCell (cell : Option String) (dflt : String) : String :=
  pyStrip (match cell with
    | none => dflt
    | some s => if s = "" then dflt else s)

/-- The body of the per-row loop of `_extract_product_table`
(`somex_pdf_parser.py:426-482`): empty rows and rows without a product code
are skipped, an out-of-range column index raises and the row is skipped, and
the unit price is `line_total / quantity_adjusted`, forced to `0` when the
divisor is not positive. -/
def extract_pdf_row (col_map : ColMap) (row : List (Option String)) :
    Option PdfItem :=
  if row = [] ∨ row.all (fun cell => pyStrip (cell.getD "") = "") then none
  else
    match row.get? (col_map.referencia.getD 1), row.get? (col_map.descripcion.getD 2),
        row.get? (col_map.cant_bultos.getD 3), row.get? (col_map.cant_kilos.getD 4),
        row.get? (col_map.valor_total.getD 6), row.get? (col_map.iva_percent.getD 8) with
    | some cellR, some cellD, some cellB, some cellK, some cellT, some cellI =>
        let product_code := pdfCell cellR ""
        let product_name := pdfCell cellD ""
        if product_code = "" then none
        else
          let quantity_original := parse_colombian_number (pdfCell cellB "0")
          let quantity_adjusted := parse_colombian_number (pdfCell cellK "0")
          let line_total := parse_colombian_number (pdfCell cellT "0")
          let tax_percentage := parse_colombian_number (pdfCell cellI "0")
          let unit_price :=
            if quantity_adjusted > 0 then line_total / quantity_adjusted else 0
          some ⟨product_code, product_name, quantity_original, quantity_adjusted,
            "KG", unit_price, tax_percentage, line_total, quantity_adjusted,
            line_total, line_total * (tax_percentage / 100)⟩
    | _, _, _, _, _, _ => none

/-! ## ZIP batch processing (`SomexProcessorService.process_zip_file`,
`somex_processor_service.py:738-813`) and the deferred marking loop of the
caller (`somex_tab.py:179-186`) -/

/-- The UTF-8 bytes of the ASCII document strings modelled here. -/
def utf8Bytes (s : String) : List Nat := s.data.map Char.toNat

/-- One XML entry extracted from a ZIP archive. -/
structure ZipEntry where
  filename : String
  content : String

/-- One entry of `results['invoices']` with the metadata attached at
`somex_processor_service.py:786-788`. -/
structure ProcessedInvoice where
  data : SomexInvoice
  xml_filename : String
  xml_content : String
deriving DecidableEq

/-- The `results` dictionary of `process_zip_file`. -/
structure ZipResults where
  total_xmls : Nat
  processed_xmls : Nat
  skipped_xmls : Nat
  failed_xmls : Nat
  invoices : List ProcessedInvoice
deriving DecidableEq

/-- One iteration of the XML loop of `process_zip_file`
(`somex_processor_service.py:770-797`): skip if the ledger already holds the
content hash, otherwise parse; a parse failure is counted and the loop
continues.  Note the loop never writes to the ledger. -/
def processZipStep (table : List XmlRecord) (r : ZipResults) (f : ZipEntry) :
    ZipResults :=
  if is_xml_processed table (utf8Bytes f.content) then
    { r with skipped_xmls := r.skipped_xmls + 1 }
  else
    match somex_parse_invoice_xml f.content with
    | none => { r with failed_xmls := r.failed_xmls + 1 }
    | some inv =>
        { r with processed_xmls := r.processed_xmls + 1,
                 invoices := r.invoices ++ [⟨inv, f.filename, f.content⟩] }

/-- `SomexProcessorService.process_zip_file`
(`somex_processor_service.py:738-813`) over the XML entries of the archive,
against a ledger state that is only read. -/
def process_zip_file (table : List XmlRecord) (files : List ZipEntry) :
    ZipResults :=
  files.foldl (processZipStep table) ⟨files.length, 0, 0, 0, []⟩

/-- The marking loop the caller runs after the whole batch
(`somex_tab.py:179-186`): one `mark_xml_processed` per accumulated invoice. -/
def mark_all_processed (table : List XmlRecord) (invs : List ProcessedInvoice)
    (zip_filename excel_path : String) : List XmlRecord :=
  invs.foldl
    (fun t p => mark_xml_processed t (utf8Bytes p.xml_content) p.xml_filename
      (some zip_filename) (some p.data.invoice_number) (some excel_path))
    table

/-! ## Concrete documents used by witnesses and counterexamples -/

/-- A Somex invoice line whose product name matches the kilos pattern with
the number `0` (`X 0 KILOS`) and whose `InvoicedQuantity` is `5`. -/
def egZeroKilosLine : XElem :=
  .node (Xml.qname nsCac "InvoiceLine") [] none
    [.node (Xml.qname nsCbc "Note") [] (some "SAL X 0 KILOS") [],
     .node (Xml.qname nsCbc "InvoicedQuantity") [] (some "5") []]

/-- A Somex invoice line with no kilos pattern, quantity 40 and taxable
amount 100000. -/
def egSomexLine40 : XElem :=
  .node (Xml.qname nsCac "InvoiceLine") [] none
    [.node (Xml.qname nsCbc "Note") [] (some "ABONO GRANULADO") [],
     .node (Xml.qname nsCbc "InvoicedQuantity") [] (some "40") [],
     .node (Xml.qname nsCac "TaxTotal") [] none
       [.node (Xml.qname nsCac "TaxSubtotal") [] none
         [.node (Xml.qname nsCbc "TaxableAmount") [] (some "100000") []]]]

/-- A Somex invoice line with quantity 0. -/
def egSomexLineZero : XElem :=
  .node (Xml.qname nsCac "InvoiceLine") [] none
    [.node (Xml.qname nsCbc "Note") [] (some "ABONO GRANULADO") [],
     .node (Xml.qname nsCbc "InvoicedQuantity") [] (some "0") [],
     .node (Xml.qname nsCac "TaxTotal") [] none
       [.node (Xml.qname nsCac "TaxSubtotal") [] none
         [.node (Xml.qname nsCbc "TaxableAmount") [] (some "100000") []]]]

/-- A PDF table row under an empty column map (all defaults):
`Línea | Referencia | Descripción | Bultos | Kilos | Precio | Total | IVA | Iva%`. -/
def egPdfRow : List (Option String) :=
  [some "1", some "R100", some "SAL MINERALIZADA", some "2", some "40",
   some "2.500", some "100.000", some "19.000", some "19"]

/-- The same row with a zero kilo quantity. -/
def egPdfRowZero : List (Option String) :=
  [some "1", some "R100", some "SAL MINERALIZADA", some "2", some "0",
   some "2.500", some "100.000", some "19.000", some "19"]

/-- The all-defaults column map. -/
def egColMap : ColMap := ⟨none, none, none, none, none, none⟩

/-- A minimal Somex-dialect UBL invoice document. -/
def egInner : String :=
  "<Invoice xmlns=\"urn:oasis:names:specification:ubl:schema:xsd:Invoice-2\" xmlns:cac=\"urn:oasis:names:specification:ubl:schema:xsd:CommonAggregateComponents-2\" xmlns:cbc=\"urn:oasis:names:specification:ubl:schema:xsd:CommonBasicComponents-2\"><cbc:ID>SETP-1</cbc:ID><cbc:IssueDate>2024-05-02</cbc:IssueDate><cac:OrderReference><cbc:ID>OC-77</cbc:ID></cac:OrderReference><cac:InvoiceLine><cbc:Note>SAL SOMEX CEBA X 40 KILOS</cbc:Note><cbc:InvoicedQuantity unitCode=\"94\">25</cbc:InvoicedQuantity><cac:TaxTotal><cac:TaxSubtotal><cbc:TaxableAmount>100000</cbc:TaxableAmount><cac:TaxCategory><cbc:Percent>19.0</cbc:Percent></cac:TaxCategory></cac:TaxSubtotal></cac:TaxTotal><cac:Item><cbc:Description>SAL</cbc:Description></cac:Item></cac:InvoiceLine></Invoice>"

/-- `egInner` wrapped in an `AttachedDocument` envelope as CDATA. -/
def egWrapped : String :=
  "<AttachedDocument xmlns=\"urn:ad\" xmlns:cac=\"urn:oasis:names:specification:ubl:schema:xsd:CommonAggregateComponents-2\" xmlns:cbc=\"urn:oasis:names:specification:ubl:schema:xsd:CommonBasicComponents-2\"><cbc:ID>AD-1</cbc:ID><cac:Attachment><cac:ExternalReference><cbc:Description><![CDATA[" ++
    egInner ++ "]]></cbc:Description></cac:ExternalReference></cac:Attachment></AttachedDocument>"

/-- A standard-UBL invoice document with a non-empty top-level `ID`. -/
def egStd : String :=
  "<Invoice xmlns=\"urn:oasis:names:specification:ubl:schema:xsd:Invoice-2\" xmlns:cac=\"urn:oasis:names:specification:ubl:schema:xsd:CommonAggregateComponents-2\" xmlns:cbc=\"urn:oasis:names:specification:ubl:schema:xsd:CommonBasicComponents-2\"><cbc:ID>FV-1001</cbc:ID><cbc:IssueDate>2024-05-02</cbc:IssueDate><cbc:DocumentCurrencyCode>COP</cbc:DocumentCurrencyCode><cac:InvoiceLine><cbc:InvoicedQuantity unitCode=\"94\">3</cbc:InvoicedQuantity><cac:Item><cbc:Description>MAIZ</cbc:Description><cac:SellersItemIdentification><cbc:ID>P9</cbc:ID></cac:SellersItemIdentification></cac:Item><cac:Price><cbc:PriceAmount>1500</cbc:PriceAmount></cac:Price></cac:InvoiceLine></Invoice>"

/-- A distinct Somex invoice document. -/
def egInner2 : String :=
  "<Invoice xmlns=\"urn:oasis:names:specification:ubl:schema:xsd:Invoice-2\" xmlns:cac=\"urn:oasis:names:specification:ubl:schema:xsd:CommonAggregateComponents-2\" xmlns:cbc=\"urn:oasis:names:specification:ubl:schema:xsd:CommonBasicComponents-2\"><cbc:ID>SETP-2</cbc:ID><cac:OrderReference><cbc:ID>OC-78</cbc:ID></cac:OrderReference></Invoice>"

/-- A small parseable Somex invoice document. -/
def egDupA : String :=
  "<Invoice xmlns:cbc=\"urn:oasis:names:specification:ubl:schema:xsd:CommonBasicComponents-2\"><cbc:ID>S-1</cbc:ID></Invoice>"

/-- A second, byte-distinct small invoice document. -/
def egDupC : String :=
  "<Invoice xmlns:cbc=\"urn:oasis:names:specification:ubl:schema:xsd:CommonBasicComponents-2\"><cbc:ID>S-2</cbc:ID></Invoice>"

/-- The C6 scenario archive: two byte-identical copies of one invoice under
different names, plus one distinct invoice. -/
def egZipFiles : List ZipEntry :=
  [⟨"a.xml", egDupA⟩, ⟨"b.xml", egDupA⟩, ⟨"c.xml", egDupC⟩]

/-- A Standard-UBL invoice line with unit code `94` on its quantity. -/
def egStdLine : XElem :=
  .node (Xml.qname nsCac "InvoiceLine") [] none
    [.node (Xml.qname nsCbc "InvoicedQuantity") [("unitCode", "94")] (some "3") [],
     .node (Xml.qname nsCac "Item") [] none
       [.node (Xml.qname nsCbc "Description") [] (some "MAIZ") []],
     .node (Xml.qname nsCac "Price") [] none
       [.node (Xml.qname nsCbc "PriceAmount") [] (some "1500") []]]

/-- The per-entry outcome of the `process_zip_file` loop against a fixed
ledger: `none` when the entry is skipped (already processed) or fails to
parse, otherwise the accumulated invoice with its metadata. -/
def zipOutcome (table : List XmlRecord) (f : ZipEntry) : Option ProcessedInvoice :=
  if is_xml_processed table (utf8Bytes f.content) then none
  else (somex_parse_invoice_xml f.content).map (fun inv => ⟨inv, f.filename, f.content⟩)

/-- Is an `Except Unit ℚ` a value (the `Decimal` call did not raise)? -/
def isOkQ : Except Unit ℚ → Bool
  | .ok _ => true
  | .error _ => false

/-- Validity of the numeric fields of every line of a Standard-UBL tree: the
three `Decimal` calls of `_parse_line_item` all succeed. -/
def stdUblLinesOk (tree : XElem) : Bool :=
  (findallPath tree [cacD "InvoiceLine"]).all (fun line =>
    isOkQ (decimalOrRaise (get_text line [cbcD "InvoicedQuantity"])) &&
    isOkQ (decimalOrRaise (get_text line [cacD "Price", cbcC "PriceAmount"])) &&
    isOkQ (decimalOrRaise (ublTaxPercentStr line)))

/-- The raw (unstripped) `Attachment/ExternalReference/Description` text of a
document that parses as an `AttachedDocument` envelope and has a truthy
`Description` text — exactly the condition under which both parsers enter
their unwrap path. -/
def descRawText (w : String) : Option String :=
  match fromstring w with
  | none => none
  | some t =>
      if containsSub "AttachedDocument" t.tag then
        match findPath t [cacD "Attachment", cacC "ExternalReference",
            cbcC "Description"] with
        | some d =>
            match d.text with
            | some txt => if txt = "" then none else some txt
            | none => none
        | none => none
      else none

/-! # Theorems -/

/-! ## C1: the Colombian-number heuristic -/

lemma pyStripL_eq (cs : List Char) :
    pyStripL cs = List.rdropWhile isPySpace (List.dropWhile isPySpace cs) := rfl

lemma dropWhile_pyStripL (cs : List Char) :
    List.dropWhile isPySpace (pyStripL cs) = pyStripL cs := by
  rw [pyStripL_eq]
  have hxself : List.dropWhile isPySpace (List.dropWhile isPySpace cs) =
      List.dropWhile isPySpace cs := List.dropWhile_idempotent _ _
  obtain ⟨t, ht⟩ := List.rdropWhile_prefix isPySpace (List.dropWhile isPySpace cs)
  cases hy : List.rdropWhile isPySpace (List.dropWhile isPySpace cs) with
  | nil => simp
  | cons a y =>
      rw [hy, List.cons_append] at ht
      have ha : isPySpace a = false := by
        by_contra hpa
        have hpa' : isPySpace a = true := by
          cases h : isPySpace a
          · exact absurd h hpa
          · rfl
        rw [← ht, List.dropWhile_cons, hpa'] at hxself
        simp only [if_true] at hxself
        have hlen : (List.dropWhile isPySpace (y ++ t)).length = (y ++ t).length + 1 := by
          rw [hxself]
          simp
        have hle : (List.dropWhile isPySpace (y ++ t)).length ≤ (y ++ t).length :=
          (List.dropWhile_sublist (l := y ++ t) (p := isPySpace)).length_le
        omega
      simp [List.dropWhile_cons, ha]

lemma pyStripL_idem (cs : List Char) : pyStripL (pyStripL cs) = pyStripL cs := by
  rw [pyStripL_eq (pyStripL cs), dropWhile_pyStripL, pyStripL_eq,
    List.rdropWhile_idempotent]

lemma pyStripL_subset (cs : List Char) : pyStripL cs ⊆ cs := by
  intro c hc
  rw [pyStripL_eq] at hc
  obtain ⟨t, ht⟩ := List.rdropWhile_prefix isPySpace (List.dropWhile isPySpace cs)
  have : c ∈ List.dropWhile isPySpace cs := by
    rw [← ht]; exact List.mem_append_left t hc
  exact (List.dropWhile_sublist _).subset this

lemma cleanNumber_idem (cs : List Char) :
    cleanNumber (cleanNumber cs) = cleanNumber cs := by
  have hmem : ∀ c ∈ cleanNumber cs, c ≠ '$' ∧ c ≠ ' ' := by
    intro c hc
    have hc' : c ∈ ((pyStripL cs).filter (fun c => c ≠ '$')).filter
        (fun c => c ≠ ' ') := pyStripL_subset _ hc
    constructor
    · have h := List.of_mem_filter (List.mem_of_mem_filter hc')
      simpa using h
    · have h := List.of_mem_filter hc'
      simpa using h
  have hstrip : pyStripL (cleanNumber cs) = cleanNumber cs := by
    unfold cleanNumber
    exact pyStripL_idem _
  have hfilter1 : (cleanNumber cs).filter (fun c => c ≠ '$') = cleanNumber cs :=
    List.filter_eq_self.mpr (fun c hc => by simpa using (hmem c hc).1)
  have hfilter2 : (cleanNumber cs).filter (fun c => c ≠ ' ') = cleanNumber cs :=
    List.filter_eq_self.mpr (fun c hc => by simpa using (hmem c hc).2)
  show pyStripL (((pyStripL (cleanNumber cs)).filter (fun c => c ≠ '$')).filter
    (fun c => c ≠ ' ')) = cleanNumber cs
  rw [hstrip, hfilter1, hfilter2, hstrip]

lemma parse_eq_parseCleaned (s : String) :
    parse_colombian_number s = parseCleaned (cleanNumber s.data) := by
  by_cases hs : s.data = []
  · unfold parse_colombian_number
    rw [if_pos hs, hs]
    rfl
  · unfold parse_colombian_number
    rw [if_neg hs]

/-- **C1.**  `_parse_colombian_number` follows the stated heuristic: the
result depends only on the cleaned string (currency symbol and spaces
removed, ends stripped); with no separators the cleaned string is parsed
directly; with only commas a single trailing comma group of length ≤ 2 makes
the comma the decimal separator and otherwise all commas are stripped as
thousands separators; symmetrically for dots; with both separators the one
occurring last in the string becomes the decimal separator and the other
character is stripped throughout; and the five spec examples evaluate as
stated. -/
theorem colombianNumber_follows_heuristic :
    (∀ s : String,
      parse_colombian_number ⟨cleanNumber s.data⟩ = parse_colombian_number s)
  ∧ (∀ s : String, (cleanNumber s.data).count ',' = 0 →
      (cleanNumber s.data).count '.' = 0 →
      parse_colombian_number s = decimalOr0 (cleanNumber s.data))
  ∧ (∀ s : String, (cleanNumber s.data).count ',' = 1 →
      (cleanNumber s.data).count '.' = 0 →
      (afterFirst ',' (cleanNumber s.data)).length ≤ 2 →
      parse_colombian_number s =
        decimalOr0 ((cleanNumber s.data).map (fun c => if c = ',' then '.' else c)))
  ∧ (∀ s : String, 0 < (cleanNumber s.data).count ',' →
      (cleanNumber s.data).count '.' = 0 →
      ¬ ((cleanNumber s.data).count ',' = 1 ∧
          (afterFirst ',' (cleanNumber s.data)).length ≤ 2) →
      parse_colombian_number s =
        decimalOr0 ((cleanNumber s.data).filter (fun c => c ≠ ',')))
  ∧ (∀ s : String, (cleanNumber s.data).count '.' = 1 →
      (cleanNumber s.data).count ',' = 0 →
      (afterFirst '.' (cleanNumber s.data)).length ≤ 2 →
      parse_colombian_number s = decimalOr0 (cleanNumber s.data))
  ∧ (∀ s : String, 0 < (cleanNumber s.data).count '.' →
      (cleanNumber s.data).count ',' = 0 →
      ¬ ((cleanNumber s.data).count '.' = 1 ∧
          (afterFirst '.' (cleanNumber s.data)).length ≤ 2) →
      parse_colombian_number s =
        decimalOr0 ((cleanNumber s.data).filter (fun c => c ≠ '.')))
  ∧ (∀ s : String, 0 < (cleanNumber s.data).count ',' →
      0 < (cleanNumber s.data).count '.' →
      lastSeparator (cleanNumber s.data) = some ',' →
      parse_colombian_number s =
        decimalOr0 (((cleanNumber s.data).filter (fun c => c ≠ '.')).map
          (fun c => if c = ',' then '.' else c)))
  ∧ (∀ s : String, 0 < (cleanNumber s.data).count ',' →
      0 < (cleanNumber s.data).count '.' →
      lastSeparator (cleanNumber s.data) = some '.' →
      parse_colombian_number s =
        decimalOr0 ((cleanNumber s.data).filter (fun c => c ≠ ',')))
  ∧ parse_colombian_number "9.778.875" = 9778875
  ∧ parse_colombian_number "9,778,875" = 9778875
  ∧ parse_colombian_number "9.778,87" = 9778.87
  ∧ parse_colombian_number "9,778.87" = 9778.87
  ∧ parse_colombian_number "$ 1.234,50" = 1234.50 := by
  have hcount_ne : ∀ (cl : List Char) (c : Char), 0 < cl.count c → cl ≠ [] := by
    intro cl c hc h
    subst h
    simp at hc
  refine ⟨?_, ?_, ?_, ?_, ?_, ?_, ?_, ?_, ?_, ?_, ?_, ?_, ?_⟩
  · intro s
    rw [parse_eq_parseCleaned, parse_eq_parseCleaned]
    show parseCleaned (cleanNumber (cleanNumber s.data)) = _
    rw [cleanNumber_idem]
  · intro s h1 h2
    rw [parse_eq_parseCleaned]
    by_cases hcl : cleanNumber s.data = []
    · rw [hcl]
      rfl
    · simp [parseCleaned, hcl, h1, h2]
  · intro s h1 h2 h3
    have hcl := hcount_ne _ _ (h1 ▸ Nat.one_pos)
    rw [parse_eq_parseCleaned]
    simp [parseCleaned, hcl, h1, h2, h3]
  · intro s h1 h2 h3
    have hcl := hcount_ne _ _ h1
    rw [parse_eq_parseCleaned]
    simp only [parseCleaned, if_neg hcl]
    rw [if_neg (by omega), if_pos ⟨h1, h2⟩, if_neg h3]
  · intro s h1 h2 h3
    have hcl := hcount_ne _ _ (h1 ▸ Nat.one_pos)
    rw [parse_eq_parseCleaned]
    simp only [parseCleaned, if_neg hcl]
    rw [if_neg (by omega), if_neg (by omega), if_pos ⟨by omega, h2⟩,
      if_pos ⟨h1, h3⟩]
  · intro s h1 h2 h3
    have hcl := hcount_ne _ _ h1
    rw [parse_eq_parseCleaned]
    simp only [parseCleaned, if_neg hcl]
    rw [if_neg (by omega), if_neg (by omega), if_pos ⟨h1, h2⟩, if_neg h3]
  · intro s h1 h2 h3
    have hcl := hcount_ne _ _ h1
    rw [parse_eq_parseCleaned]
    simp only [parseCleaned, if_neg hcl]
    rw [if_neg (by omega), if_neg (by omega), if_neg (by omega), if_pos h3]
  · intro s h1 h2 h3
    have hcl := hcount_ne _ _ h1
    rw [parse_eq_parseCleaned]
    simp only [parseCleaned, if_neg hcl]
    rw [if_neg (by omega), if_neg (by omega), if_neg (by omega),
      if_neg (by simp [h3])]
  · decide
  · decide
  · rw [show parse_colombian_number "9.778,87" = mkRat 977887 100 from by decide]
    norm_num
  · rw [show parse_colombian_number "9,778.87" = mkRat 977887 100 from by decide]
    norm_num
  · rw [show parse_colombian_number "$ 1.234,50" = mkRat 123450 100 from by decide]
    norm_num

/-- Witness for C1: the heuristic conjuncts applied at concrete inputs. -/
theorem colombianNumber_follows_heuristic_witness :
    parse_colombian_number "42" = decimalOr0 (cleanNumber "42".data) ∧
    parse_colombian_number "9.778,87" =
      decimalOr0 (((cleanNumber "9.778,87".data).filter (fun c => c ≠ '.')).map
        (fun c => if c = ',' then '.' else c)) := by
  constructor
  · exact colombianNumber_follows_heuristic.2.1 "42" (by decide) (by decide)
  · exact colombianNumber_follows_heuristic.2.2.2.2.2.2.1 "9.778,87"
      (by decide) (by decide) (by decide)

/-! ## C2: the dedup ledger is keyed by the SHA-256 of the raw bytes -/

lemma is_xml_processed_mark (t : List XmlRecord) (c : List Nat) (f : String)
    (z i e : Option String) (b : List Nat) :
    is_xml_processed (mark_xml_processed t c f z i e) b = true ↔
      (is_xml_processed t b = true ∨ get_xml_hash c = get_xml_hash b) := by
  unfold mark_xml_processed is_xml_processed
  by_cases h : (t.any (fun r => r.xml_hash = get_xml_hash c)) = true
  · rw [if_pos h]
    constructor
    · exact fun hb => Or.inl hb
    · rintro (hb | hcb)
      · exact hb
      · rw [hcb] at h
        exact h
  · rw [if_neg h]
    rw [List.any_append]
    simp

lemma mark_of_processed (t : List XmlRecord) (c : List Nat) (f : String)
    (z i e : Option String) (h : is_xml_processed t c = true) :
    mark_xml_processed t c f z i e = t := by
  unfold is_xml_processed at h
  unfold mark_xml_processed
  rw [if_pos h]

/-- The fold step of `applyMarks`. -/
lemma applyMarks_foldl (calls : List MarkCall) :
    applyMarks calls = calls.foldl (fun t c => mark_xml_processed t c.content
      c.filename c.zip_filename c.invoice_number c.excel_file) [] := rfl

lemma foldl_marks_processed (b : List Nat) (calls : List MarkCall) :
    ∀ t : List XmlRecord,
      is_xml_processed (calls.foldl (fun t c => mark_xml_processed t c.content
        c.filename c.zip_filename c.invoice_number c.excel_file) t) b = true ↔
      (is_xml_processed t b = true ∨
        ∃ call ∈ calls, get_xml_hash call.content = get_xml_hash b) := by
  induction calls with
  | nil => intro t; simp
  | cons c rest ih =>
      intro t
      rw [List.foldl_cons, ih, is_xml_processed_mark]
      constructor
      · rintro ((hb | hc) | hrest)
        · exact Or.inl hb
        · exact Or.inr ⟨c, List.mem_cons_self c rest, hc⟩
        · obtain ⟨call, hmem, hh⟩ := hrest
          exact Or.inr ⟨call, List.mem_cons_of_mem c hmem, hh⟩
      · rintro (hb | hrest)
        · exact Or.inl (Or.inl hb)
        · obtain ⟨call, hmem, hh⟩ := hrest
          rcases List.mem_cons.mp hmem with hcall | hcall
          · subst hcall
            exact Or.inl (Or.inr hh)
          · exact Or.inr ⟨call, hcall, hh⟩

/-- **C2.**  The ledger depends only on the raw document bytes: re-marking
byte-identical content with different metadata leaves the table unchanged
(one record per content hash, immutable, independent of filename); a marked
table answers `is_xml_processed` for a content with a different SHA-256 hash
exactly as before the mark; and — on any run whose recorded contents do not
collide with the queried bytes under SHA-256 — `is_xml_processed b` holds
iff `mark_xml_processed` was previously called with byte-identical content. -/
theorem dedup_ledger_keyed_by_sha256 :
    (∀ (t : List XmlRecord) (c : List Nat) (f₁ : String) (z₁ i₁ e₁ : Option String)
        (f₂ : String) (z₂ i₂ e₂ : Option String),
      mark_xml_processed (mark_xml_processed t c f₁ z₁ i₁ e₁) c f₂ z₂ i₂ e₂ =
        mark_xml_processed t c f₁ z₁ i₁ e₁)
  ∧ (∀ (t : List XmlRecord) (c : List Nat) (f : String) (z i e : Option String),
      is_xml_processed t c = true → mark_xml_processed t c f z i e = t)
  ∧ (∀ (t : List XmlRecord) (c c' : List Nat) (f : String) (z i e : Option String),
      get_xml_hash c ≠ get_xml_hash c' →
      is_xml_processed (mark_xml_processed t c f z i e) c' = is_xml_processed t c')
  ∧ (∀ (calls : List MarkCall) (b : List Nat),
      (∀ call ∈ calls, get_xml_hash call.content = get_xml_hash b →
        call.content = b) →
      (is_xml_processed (applyMarks calls) b = true ↔
        ∃ call ∈ calls, call.content = b)) := by
  refine ⟨?_, ?_, ?_, ?_⟩
  · intro t c f₁ z₁ i₁ e₁ f₂ z₂ i₂ e₂
    exact mark_of_processed _ _ _ _ _ _
      ((is_xml_processed_mark t c f₁ z₁ i₁ e₁ c).mpr (Or.inr rfl))
  · exact mark_of_processed
  · intro t c c' f z i e hne
    rw [Bool.eq_iff_iff, is_xml_processed_mark]
    constructor
    · rintro (hb | hcb)
      · exact hb
      · exact absurd hcb hne
    · exact fun hb => Or.inl hb
  · intro calls b hnocol
    rw [applyMarks_foldl, foldl_marks_processed]
    constructor
    · rintro (hempty | ⟨call, hmem, hh⟩)
      · simp [is_xml_processed] at hempty
      · exact ⟨call, hmem, hnocol call hmem hh⟩
    · rintro ⟨call, hmem, hcontent⟩
      exact Or.inr ⟨call, hmem, by rw [hcontent]⟩

/-- Witness for C2 at concrete byte strings, the SHA-256 values computed by
the kernel. -/
theorem dedup_ledger_keyed_by_sha256_witness :
    (mark_xml_processed (mark_xml_processed [] [0] "a.xml" none none none) [0]
        "b.xml" (some "z.zip") (some "F1") none =
      mark_xml_processed [] [0] "a.xml" none none none)
  ∧ (mark_xml_processed (mark_xml_processed [] [0] "a.xml" none none none) [0]
        "c.xml" none none none =
      mark_xml_processed [] [0] "a.xml" none none none)
  ∧ (is_xml_processed (mark_xml_processed [] [0] "a.xml" none none none) [1] =
      is_xml_processed [] [1])
  ∧ (is_xml_processed (applyMarks
      [⟨[0], "a.xml", none, none, none⟩, ⟨[1], "b.xml", none, none, none⟩]) [0] =
        true ↔
      ∃ call ∈ [(⟨[0], "a.xml", none, none, none⟩ : MarkCall),
        ⟨[1], "b.xml", none, none, none⟩], call.content = [0]) := by
  refine ⟨dedup_ledger_keyed_by_sha256.1 [] [0] "a.xml" none none none "b.xml"
      (some "z.zip") (some "F1") none,
    dedup_ledger_keyed_by_sha256.2.1 (mark_xml_processed [] [0] "a.xml" none
      none none) [0] "c.xml" none none none (by decide),
    dedup_ledger_keyed_by_sha256.2.2.1 [] [0] [1] "a.xml" none none none
      (by decide),
    dedup_ledger_keyed_by_sha256.2.2.2 _ [0] ?_⟩
  intro call hmem
  rcases List.mem_cons.mp hmem with h | h
  · subst h
    intro
    rfl
  · rcases List.mem_cons.mp h with h' | h'
    · subst h'
      intro hh
      exact absurd hh (by decide)
    · simp at h'

/-! ## C3: Somex kilos-in-name quantity scaling -/

unseal Rat.mul Rat.inv in
/-- Counterexample to C3 as stated: the name `"SAL X 0 KILOS"` matches the
kilos pattern with extracted number `0`, yet the effective quantity stays at
the original `5` (Python's `if kilos:` is false on `Decimal('0')`), while the
claim demands `quantity_original × 0 = 0`. -/
theorem somex_kilos_zero_counterexample :
    extract_kilos_from_name (somexProductName egZeroKilosLine) = some 0
  ∧ (parse_somex_line_item egZeroKilosLine).map
      (fun it => it.quantity_original) = some 5
  ∧ (parse_somex_line_item egZeroKilosLine).map
      (fun it => it.quantity_adjusted) = some 5
  ∧ ¬ ((5 : ℚ) = 5 * 0) := by
  refine ⟨by decide, by decide, by decide, by decide⟩

/-- **C3 (amended).**  For every Somex-UBL line that parses,
`quantity_original` is the literal `InvoicedQuantity` value; when the product
name matches the kilos pattern (`X <number>` followed by `KIL`,
case-insensitive, decimal point allowed) **and the extracted number is
non-zero**, the effective quantity is `quantity_original × kilos`; when there
is no match **or the extracted number is zero**, the effective quantity
equals `quantity_original` (flagged by a warning, not an error — the line
still parses).  The two spec examples extract as stated. -/
theorem somex_kilos_scaling_amended :
    (∀ (line : XElem) (item : SomexItem) (q : ℚ),
      parse_somex_line_item line = some item →
      decimalOrNone (get_text line [cbcD "InvoicedQuantity"]) = some q →
      item.quantity_original = q)
  ∧ (∀ (line : XElem) (item : SomexItem) (k : ℚ),
      parse_somex_line_item line = some item →
      extract_kilos_from_name (somexProductName line) = some k → k ≠ 0 →
      item.quantity_adjusted = item.quantity_original * k)
  ∧ (∀ (line : XElem) (item : SomexItem),
      parse_somex_line_item line = some item →
      (extract_kilos_from_name (somexProductName line) = none ∨
        extract_kilos_from_name (somexProductName line) = some 0) →
      item.quantity_adjusted = item.quantity_original)
  ∧ extract_kilos_from_name "SAL SOMEX CEBA X 40 KILOS" = some 40
  ∧ extract_kilos_from_name "ARROZ X 1 UNIDAD" = none := by
  refine ⟨?_, ?_, ?_, by decide, by decide⟩
  · intro line item q h hq
    unfold parse_somex_line_item at h
    split at h
    · rename_i quantity_original taxable_amount tax_percentage heq₁ heq₂ heq₃
      rw [hq] at heq₁
      cases h
      cases heq₁
      rfl
    · exact absurd h (by simp)
  · intro line item k h hk hk0
    unfold parse_somex_line_item at h
    split at h
    · rename_i quantity_original taxable_amount tax_percentage heq₁ heq₂ heq₃
      cases h
      show (if (extract_kilos_from_name (somexProductName line)).getD 0 ≠ 0 then
        _ else _) = _
      rw [hk]
      simp [hk0]
    · exact absurd h (by simp)
  · intro line item h hk
    unfold parse_somex_line_item at h
    split at h
    · rename_i quantity_original taxable_amount tax_percentage heq₁ heq₂ heq₃
      cases h
      show (if (extract_kilos_from_name (somexProductName line)).getD 0 ≠ 0 then
        _ else _) = _
      rcases hk with hk | hk <;> rw [hk] <;> simp
    · exact absurd h (by simp)

unseal Rat.mul Rat.inv in
/-- Witness for C3 (amended): the scaling at the spec's example line, the
non-scaling with quantity preserved, and the literal quantity. -/
theorem somex_kilos_scaling_amended_witness :
    (parse_somex_line_item egSomexLine40).map (fun it => it.quantity_adjusted) =
      some 40
  ∧ (parse_somex_line_item egSomexLine40).map (fun it => it.quantity_original) =
      some 40 := by
  have h40 : parse_somex_line_item egSomexLine40 =
      some ⟨"ABONO GRANULADO", "SPN-1", 40, 40, 40, "KG", 2500, 0, 100000⟩ := by
    decide
  have hlit := somex_kilos_scaling_amended.1 egSomexLine40
    ⟨"ABONO GRANULADO", "SPN-1", 40, 40, 40, "KG", 2500, 0, 100000⟩ 40 h40
    (by decide)
  have hsame := somex_kilos_scaling_amended.2.2.1 egSomexLine40
    ⟨"ABONO GRANULADO", "SPN-1", 40, 40, 40, "KG", 2500, 0, 100000⟩ h40
    (Or.inl (by decide))
  refine ⟨?_, ?_⟩
  · rw [h40]
    simp [hsame, hlit]
  · rw [h40]
    simp [hlit]

/-! ## C4: unit price is derived, with a guarded divisor -/

unseal Rat.mul Rat.inv in
/-- **C4.**  In both Somex dialects the unit price is derived: for a parsed
Somex-UBL line it equals `taxable_amount / quantity_adjusted` when the
adjusted quantity is positive and `0` otherwise; for a parsed PDF row it
equals `line_total / quantity_adjusted` when the adjusted quantity is
positive and `0` otherwise; and at the spec's example figures 100000/40
gives 2500 while a zero adjusted quantity gives 0 with no error. -/
theorem somex_unit_price_derived :
    (∀ (line : XElem) (item : SomexItem), parse_somex_line_item line = some item →
      (0 < item.quantity_adjusted →
        item.unit_price = item.taxable_amount / item.quantity_adjusted) ∧
      (¬ 0 < item.quantity_adjusted → item.unit_price = 0))
  ∧ (∀ (col_map : ColMap) (row : List (Option String)) (item : PdfItem),
      extract_pdf_row col_map row = some item →
      (0 < item.quantity_adjusted →
        item.unit_price = item.line_total / item.quantity_adjusted) ∧
      (¬ 0 < item.quantity_adjusted → item.unit_price = 0))
  ∧ (parse_somex_line_item egSomexLine40).map (fun it => it.unit_price) =
      some 2500
  ∧ (parse_somex_line_item egSomexLineZero).map (fun it => it.unit_price) =
      some 0
  ∧ (extract_pdf_row egColMap egPdfRow).map (fun it => it.unit_price) =
      some 2500
  ∧ (extract_pdf_row egColMap egPdfRowZero).map (fun it => it.unit_price) =
      some 0 := by
  refine ⟨?_, ?_, by decide, by decide, by decide, by decide⟩
  · intro line item h
    unfold parse_somex_line_item at h
    split at h
    · rename_i quantity_original taxable_amount tax_percentage heq₁ heq₂ heq₃
      cases h
      constructor
      · intro hpos
        show (if _ > 0 then _ else _) = _
        rw [if_pos hpos]
      · intro hneg
        show (if _ > 0 then _ else _) = _
        rw [if_neg hneg]
    · exact absurd h (by simp)
  · intro col_map row item h
    unfold extract_pdf_row at h
    split at h
    · exact absurd h (by simp)
    · split at h
      · rename_i cellR cellD cellB cellK cellT cellI heq₁ heq₂ heq₃ heq₄ heq₅ heq₆
        dsimp only at h
        split at h
        · exact absurd h (by simp)
        · cases h
          constructor
          · intro hpos
            show (if _ > 0 then _ else _) = _
            rw [if_pos hpos]
          · intro hneg
            show (if _ > 0 then _ else _) = _
            rw [if_neg hneg]
      · exact absurd h (by simp)

unseal Rat.mul Rat.inv in
/-- Witness for C4 at the concrete example line and row: the unit price is
the quotient at the positive quantity, and 0 at the zero quantity. -/
theorem somex_unit_price_derived_witness :
    (parse_somex_line_item egSomexLine40).map (fun it => it.unit_price) =
      some ((100000 : ℚ) / 40)
  ∧ (extract_pdf_row egColMap egPdfRowZero).map (fun it => it.unit_price) =
      some 0 := by
  have h40 : parse_somex_line_item egSomexLine40 =
      some ⟨"ABONO GRANULADO", "SPN-1", 40, 40, 40, "KG", 2500, 0, 100000⟩ := by
    decide
  have hz : extract_pdf_row egColMap egPdfRowZero =
      some ⟨"R100", "SAL MINERALIZADA", 2, 0, "KG", 0, 19, 100000, 0, 100000,
        19000⟩ := by
    decide
  have h1 := (somex_unit_price_derived.1 egSomexLine40
    ⟨"ABONO GRANULADO", "SPN-1", 40, 40, 40, "KG", 2500, 0, 100000⟩ h40).1
    (by decide)
  have h2 := (somex_unit_price_derived.2.1 egColMap egPdfRowZero
    ⟨"R100", "SAL MINERALIZADA", 2, 0, "KG", 0, 19, 100000, 0, 100000, 19000⟩
    hz).2 (by decide)
  refine ⟨?_, ?_⟩
  · rw [h40]
    exact congrArg some h1
  · rw [hz]
    exact congrArg some h2

/-! ## C10: duplicate normalized descriptions — last row wins -/

lemma find?_mapReplace (inv : PulgarinInventory) (k key : String)
    (item : PulgarinInventoryItem) (hne : key ≠ k) :
    (inv.map (fun p => if p.1 = k then (k, item) else p)).find?
        (fun p => p.1 = key) =
      inv.find? (fun p => p.1 = key) := by
  induction inv with
  | nil => rfl
  | cons a rest ih =>
      by_cases ha : a.1 = k
      · have h₁ : ¬ (k = key) := fun h => hne h.symm
        have h₂ : ¬ (a.1 = key) := by
          rw [ha]
          exact h₁
        simp only [List.map_cons, List.find?_cons, if_pos ha,
          decide_eq_false h₁, decide_eq_false h₂]
        exact ih
      · simp only [List.map_cons, List.find?_cons, if_neg ha]
        by_cases hakey : a.1 = key
        · simp only [decide_eq_true hakey]
        · simp only [decide_eq_false hakey]
          exact ih

lemma find?_dictSet_self (inv : PulgarinInventory) (k : String)
    (item : PulgarinInventoryItem) :
    (dictSet inv k item).find? (fun p => p.1 = k) = some (k, item) := by
  unfold dictSet
  by_cases hany : (inv.any (fun p => p.1 = k)) = true
  · rw [if_pos hany]
    induction inv with
    | nil => simp at hany
    | cons a rest ih =>
        by_cases ha : a.1 = k
        · simp only [List.map_cons, List.find?_cons, if_pos ha]
          simp
        · have hrest : (rest.any (fun p => p.1 = k)) = true := by
            simp only [List.any_cons] at hany
            rcases Bool.or_eq_true_iff.mp hany with h | h
            · exact absurd (of_decide_eq_true h) ha
            · exact h
          simp only [List.map_cons, List.find?_cons, if_neg ha,
            decide_eq_false ha]
          exact ih hrest
  · rw [if_neg hany, List.find?_append]
    have hnone : inv.find? (fun p => p.1 = k) = none := by
      rw [List.find?_eq_none]
      intro p hp hcontra
      exact hany (List.any_eq_true.mpr ⟨p, hp, hcontra⟩)
    rw [hnone]
    simp [List.find?_cons]

lemma find?_dictSet_other (inv : PulgarinInventory) (k : String)
    (item : PulgarinInventoryItem) (key : String) (hne : key ≠ k) :
    (dictSet inv k item).find? (fun p => p.1 = key) =
      inv.find? (fun p => p.1 = key) := by
  unfold dictSet
  by_cases hany : (inv.any (fun p => p.1 = k)) = true
  · rw [if_pos hany]
    exact find?_mapReplace inv k key item hne
  · rw [if_neg hany, List.find?_append]
    have hne' : ¬ ((k, item).1 = key) := fun h => hne h.symm
    simp only [List.find?_cons, List.find?_nil, decide_eq_false hne']
    cases inv.find? (fun p => p.1 = key) <;> rfl

lemma import_lookup (key : String) (rows : List InventoryRow) :
    ∀ acc : PulgarinInventory × Nat,
      (((rows.foldl importStep acc).1).find? (fun p => p.1 = key)).map
          (fun p => p.2) =
        match ((rows.filterMap rowItem).filter
            (fun it => it.descripcion_normalizada = key)).getLast? with
        | some it => some it
        | none => (acc.1.find? (fun p => p.1 = key)).map (fun p => p.2) := by
  induction rows with
  | nil => intro acc; rfl
  | cons r rest ih =>
      intro acc
      rw [List.foldl_cons]
      cases hr : rowItem r with
      | none =>
          rw [show importStep acc r = acc from by simp [importStep, hr], ih acc,
            show List.filterMap rowItem (r :: rest) = List.filterMap rowItem rest
              from by simp [List.filterMap_cons, hr]]
      | some item =>
          rw [show importStep acc r =
              (dictSet acc.1 item.descripcion_normalizada item, acc.2 + 1)
              from by simp [importStep, hr], ih _,
            show List.filterMap rowItem (r :: rest) =
                item :: List.filterMap rowItem rest
              from by simp [List.filterMap_cons, hr]]
          by_cases hk : item.descripcion_normalizada = key
          · rw [List.filter_cons_of_pos (by simpa using hk)]
            cases hrest : ((List.filterMap rowItem rest).filter
                (fun it => it.descripcion_normalizada = key)) with
            | nil =>
                simp only [hrest, List.getLast?_nil, List.getLast?_singleton]
                rw [← hk, find?_dictSet_self]
                rfl
            | cons b bs =>
                simp only [hrest, List.getLast?_cons_cons]
                rw [List.getLast?_eq_getLast (b :: bs) (by simp)]
          · rw [List.filter_cons_of_neg (by simpa using hk)]
            cases hrest : ((List.filterMap rowItem rest).filter
                (fun it => it.descripcion_normalizada = key)).getLast? with
            | some x => simp only [hrest]
            | none =>
                simp only [hrest]
                rw [find?_dictSet_other _ _ _ _ (fun h => hk h.symm)]

lemma import_count (rows : List InventoryRow) :
    ∀ acc : PulgarinInventory × Nat,
      (rows.foldl importStep acc).2 = acc.2 + (rows.filterMap rowItem).length := by
  induction rows with
  | nil => intro acc; simp
  | cons r rest ih =>
      intro acc
      rw [List.foldl_cons]
      cases hr : rowItem r with
      | none =>
          rw [show importStep acc r = acc from by simp [importStep, hr], ih acc,
            show List.filterMap rowItem (r :: rest) = List.filterMap rowItem rest
              from by simp [List.filterMap_cons, hr]]
      | some item =>
          rw [show importStep acc r =
              (dictSet acc.1 item.descripcion_normalizada item, acc.2 + 1)
              from by simp [importStep, hr], ih _,
            show List.filterMap rowItem (r :: rest) =
                item :: List.filterMap rowItem rest
              from by simp [List.filterMap_cons, hr]]
          simp
          omega

/-- **C10.**  When several imported rows normalize to the same description
key, the import keeps only the last such row: `find_by_description`,
`get_weight` and `get_unit_of_measure` all answer from the **last** imported
row whose normalized description matches the normalized query, while the
returned import count still counts every non-skipped row separately (a row
is skipped exactly when its description cell is empty). -/
theorem inventory_import_last_row_wins :
    (∀ rows : List InventoryRow,
      (import_from_excel rows).2 = (rows.filterMap rowItem).length)
  ∧ (∀ r : InventoryRow, (rowItem r).isSome = true ↔ cellStr r.descripcion ≠ "")
  ∧ (∀ (rows : List InventoryRow) (name : String),
      find_by_description (import_from_excel rows).1 name =
        ((rows.filterMap rowItem).filter (fun it => it.descripcion_normalizada =
          (if name = "" then "" else pyLower (pyStrip name)))).getLast?)
  ∧ (∀ (rows : List InventoryRow) (name : String),
      get_weight (import_from_excel rows).1 name =
        (((rows.filterMap rowItem).filter (fun it => it.descripcion_normalizada =
          (if name = "" then "" else pyLower (pyStrip name)))).getLast?).bind
          (fun it => it.peso))
  ∧ (∀ (rows : List InventoryRow) (name : String),
      get_unit_of_measure (import_from_excel rows).1 name =
        (((rows.filterMap rowItem).filter (fun it => it.descripcion_normalizada =
          (if name = "" then "" else pyLower (pyStrip name)))).getLast?).map
          (fun it => it.unidad_medida)) := by
  have hfind : ∀ (rows : List InventoryRow) (name : String),
      find_by_description (import_from_excel rows).1 name =
        ((rows.filterMap rowItem).filter (fun it => it.descripcion_normalizada =
          (if name = "" then "" else pyLower (pyStrip name)))).getLast? := by
    intro rows name
    have h := import_lookup (if name = "" then "" else pyLower (pyStrip name))
      rows ([], 0)
    show (((rows.foldl importStep ([], 0)).1).find? _).map _ = _
    rw [h]
    cases hlast : ((rows.filterMap rowItem).filter
        (fun it => it.descripcion_normalizada =
          (if name = "" then "" else pyLower (pyStrip name)))).getLast? with
    | some it => simp
    | none => simp
  refine ⟨?_, ?_, hfind, ?_, ?_⟩
  · intro rows
    have := import_count rows ([], 0)
    simpa using this
  · intro r
    unfold rowItem
    by_cases h : cellStr r.descripcion = "" <;> simp [h]
  · intro rows name
    show (find_by_description (import_from_excel rows).1 name).bind
      (fun it => it.peso) = _
    rw [hfind rows name]
  · intro rows name
    show (find_by_description (import_from_excel rows).1 name).map
      (fun it => it.unidad_medida) = _
    rw [hfind rows name]

/-! ## C8: the Standard-UBL unit-of-measure lookup -/

/-- **C8.**  The Standard-UBL unit-of-measure mapping is the fixed lookup
`94→KG, KGM→KG, GRM→GR, LTR→LT, MTR→MT, H87→UN, EA→UN, NIU→UN, C62→UN`;
every code outside the table, including the empty code, passes through
unchanged; and a line parsed without an inventory service carries exactly
`UNIT_CODE_MAP.get(unit_code, unit_code)` of its `unitCode` attribute. -/
theorem unit_code_mapping :
    unitCodeLookup "94" = "KG" ∧ unitCodeLookup "KGM" = "KG"
  ∧ unitCodeLookup "GRM" = "GR" ∧ unitCodeLookup "LTR" = "LT"
  ∧ unitCodeLookup "MTR" = "MT" ∧ unitCodeLookup "H87" = "UN"
  ∧ unitCodeLookup "EA" = "UN" ∧ unitCodeLookup "NIU" = "UN"
  ∧ unitCodeLookup "C62" = "UN" ∧ unitCodeLookup "" = ""
  ∧ (∀ code : String,
      code ∉ ["94", "KGM", "GRM", "LTR", "MTR", "H87", "EA", "NIU", "C62"] →
      unitCodeLookup code = code)
  ∧ (∀ (line : XElem) (item : InvoiceItem),
      parse_line_item none line = .ok item →
      item.unit_of_measure = unitCodeLookup (ublUnitCode line)) := by
  refine ⟨by decide, by decide, by decide, by decide, by decide, by decide,
    by decide, by decide, by decide, by decide, ?_, ?_⟩
  · intro code h
    simp only [List.mem_cons, not_or] at h
    obtain ⟨h1, h2, h3, h4, h5, h6, h7, h8, h9, _⟩ := h
    simp only [unitCodeLookup, UNIT_CODE_MAP, List.find?_cons, List.find?_nil,
      decide_eq_false (fun hh : "94" = code => h1 hh.symm),
      decide_eq_false (fun hh : "KGM" = code => h2 hh.symm),
      decide_eq_false (fun hh : "GRM" = code => h3 hh.symm),
      decide_eq_false (fun hh : "LTR" = code => h4 hh.symm),
      decide_eq_false (fun hh : "MTR" = code => h5 hh.symm),
      decide_eq_false (fun hh : "H87" = code => h6 hh.symm),
      decide_eq_false (fun hh : "EA" = code => h7 hh.symm),
      decide_eq_false (fun hh : "NIU" = code => h8 hh.symm),
      decide_eq_false (fun hh : "C62" = code => h9 hh.symm)]
  · intro line item h
    unfold parse_line_item at h
    split at h
    · rename_i quantity unit_price tax_percentage heq₁ heq₂ heq₃
      cases h
      simp [ublInventoryWeight]
    · exact absurd h (by simp)

/-- Witness for C8: an unknown code passes through, and the concrete line
with `unitCode="94"` gets `KG`. -/
theorem unit_code_mapping_witness :
    unitCodeLookup "XYZ" = "XYZ"
  ∧ (match parse_line_item none egStdLine with
      | .ok item => item.unit_of_measure
      | .error _ => "") = unitCodeLookup (ublUnitCode egStdLine) := by
  constructor
  · exact unit_code_mapping.2.2.2.2.2.2.2.2.2.2.1 "XYZ" (by decide)
  · have h : parse_line_item none egStdLine =
        .ok ⟨"MAIZ", "", "SPN-1", 3, "KG", 1500, 0, none, none⟩ := by rfl
    have := unit_code_mapping.2.2.2.2.2.2.2.2.2.2.2 egStdLine
      ⟨"MAIZ", "", "SPN-1", 3, "KG", 1500, 0, none, none⟩ h
    rw [h]
    exact this

/-! ## C7: no document failure aborts the batch -/

lemma processZip_fold (table : List XmlRecord) (files : List ZipEntry) :
    ∀ r : ZipResults,
      ((files.foldl (processZipStep table) r).total_xmls = r.total_xmls)
    ∧ ((files.foldl (processZipStep table) r).invoices =
        r.invoices ++ files.filterMap (zipOutcome table))
    ∧ ((files.foldl (processZipStep table) r).processed_xmls =
        r.processed_xmls + (files.filterMap (zipOutcome table)).length)
    ∧ ((files.foldl (processZipStep table) r).processed_xmls +
        (files.foldl (processZipStep table) r).skipped_xmls +
        (files.foldl (processZipStep table) r).failed_xmls =
        r.processed_xmls + r.skipped_xmls + r.failed_xmls + files.length) := by
  induction files with
  | nil => intro r; simp
  | cons f rest ih =>
      intro r
      rw [List.foldl_cons]
      by_cases hproc : (is_xml_processed table (utf8Bytes f.content)) = true
      · have hstep : processZipStep table r f = { r with skipped_xmls := r.skipped_xmls + 1 } := by
          simp [processZipStep, hproc]
        have hout : zipOutcome table f = none := by
          simp [zipOutcome, hproc]
        rw [hstep, List.filterMap_cons, hout]
        obtain ⟨ht, hi, hp, hs⟩ := ih { r with skipped_xmls := r.skipped_xmls + 1 }
        refine ⟨ht, hi, hp, ?_⟩
        rw [hs]
        simp
        omega
      · cases hparse : somex_parse_invoice_xml f.content with
        | none =>
            have hstep : processZipStep table r f =
                { r with failed_xmls := r.failed_xmls + 1 } := by
              simp [processZipStep, hproc, hparse]
            have hout : zipOutcome table f = none := by
              simp [zipOutcome, hproc, hparse]
            rw [hstep, List.filterMap_cons, hout]
            obtain ⟨ht, hi, hp, hs⟩ := ih { r with failed_xmls := r.failed_xmls + 1 }
            refine ⟨ht, hi, hp, ?_⟩
            rw [hs]
            simp
            omega
        | some inv =>
            have hstep : processZipStep table r f =
                ⟨r.total_xmls, r.processed_xmls + 1, r.skipped_xmls,
                  r.failed_xmls, r.invoices ++ [⟨inv, f.filename, f.content⟩]⟩ := by
              simp [processZipStep, hproc, hparse]
            have hout : zipOutcome table f = some ⟨inv, f.filename, f.content⟩ := by
              simp [zipOutcome, hproc, hparse]
            rw [hstep, List.filterMap_cons, hout]
            obtain ⟨ht, hi, hp, hs⟩ := ih ⟨r.total_xmls, r.processed_xmls + 1,
              r.skipped_xmls, r.failed_xmls,
              r.invoices ++ [⟨inv, f.filename, f.content⟩]⟩
            refine ⟨ht, ?_, ?_, ?_⟩
            · rw [hi]
              simp
            · rw [hp]
              simp
              omega
            · rw [hs]
              simp
              omega

/-- **C7.**  Invoice parsing never raises to the batch caller: the
application layer maps every parser exception to `None`
(`XMLParserService.parse_invoice_xml`), and `process_zip_file` processes
every entry of the archive independently of earlier failures — the result
lists exactly the per-entry outcomes (skips and parse failures yield no
invoice but the loop continues), the counts partition the file list, and the
invoice count equals the processed count. -/
theorem batch_error_containment :
    (∀ (inventory_service : Option PulgarinInventory) (s : String) (e : Unit),
      ubl_parse_invoice inventory_service s = .error e →
      xml_parser_service_parse inventory_service s = none)
  ∧ (∀ (table : List XmlRecord) (files : List ZipEntry),
      (process_zip_file table files).total_xmls = files.length
    ∧ (process_zip_file table files).invoices =
        files.filterMap (zipOutcome table)
    ∧ (process_zip_file table files).invoices.length =
        (process_zip_file table files).processed_xmls
    ∧ (process_zip_file table files).processed_xmls +
        (process_zip_file table files).skipped_xmls +
        (process_zip_file table files).failed_xmls = files.length) := by
  constructor
  · intro inventory_service s e h
    unfold xml_parser_service_parse
    rw [h]
  · intro table files
    obtain ⟨ht, hi, hp, hs⟩ := processZip_fold table files ⟨files.length, 0, 0, 0, []⟩
    unfold process_zip_file
    refine ⟨ht, by simpa using hi, ?_, by simpa using hs⟩
    rw [hi, hp]
    simp

/-- Witness for C7: a malformed document yields `None` from the service
layer rather than an exception. -/
theorem batch_error_containment_witness :
    xml_parser_service_parse none "this is not xml" = none :=
  batch_error_containment.1 none "this is not xml" () rfl

/-! ## C9: Standard-UBL parse totality and the invoice number -/

lemma parse_line_item_ok (inventory_service : Option PulgarinInventory)
    (line : XElem)
    (h1 : isOkQ (decimalOrRaise (get_text line [cbcD "InvoicedQuantity"])) = true)
    (h2 : isOkQ (decimalOrRaise
      (get_text line [cacD "Price", cbcC "PriceAmount"])) = true)
    (h3 : isOkQ (decimalOrRaise (ublTaxPercentStr line)) = true) :
    ∃ item, parse_line_item inventory_service line = .ok item := by
  unfold parse_line_item
  cases e1 : decimalOrRaise (get_text line [cbcD "InvoicedQuantity"]) with
  | error u =>
      rw [e1] at h1
      simp [isOkQ] at h1
  | ok q =>
      cases e2 : decimalOrRaise (get_text line [cacD "Price", cbcC "PriceAmount"]) with
      | error u =>
          rw [e2] at h2
          simp [isOkQ] at h2
      | ok p =>
          cases e3 : decimalOrRaise (ublTaxPercentStr line) with
          | error u =>
              rw [e3] at h3
              simp [isOkQ] at h3
          | ok tp => exact ⟨_, rfl⟩

lemma parseLines_ok (inventory_service : Option PulgarinInventory) :
    ∀ lines : List XElem,
      (∀ l ∈ lines,
        isOkQ (decimalOrRaise (get_text l [cbcD "InvoicedQuantity"])) = true ∧
        isOkQ (decimalOrRaise (get_text l [cacD "Price", cbcC "PriceAmount"])) = true ∧
        isOkQ (decimalOrRaise (ublTaxPercentStr l)) = true) →
      ∃ items, parseLines inventory_service lines = .ok items := by
  intro lines
  induction lines with
  | nil => exact fun _ => ⟨[], rfl⟩
  | cons l rest ih =>
      intro h
      obtain ⟨hq, hp, ht⟩ := h l (List.mem_cons_self l rest)
      obtain ⟨item, hitem⟩ := parse_line_item_ok inventory_service l hq hp ht
      obtain ⟨items, hitems⟩ := ih (fun l' hl' => h l' (List.mem_cons_of_mem l hl'))
      refine ⟨item :: items, ?_⟩
      unfold parseLines
      rw [hitem, hitems]

/-- **C9.**  On a well-formed Standard-UBL document (the XML parses, the root
is not an `AttachedDocument` envelope, and every line's three numeric fields
satisfy the `Decimal` grammar) `parse_invoice` returns an `Invoice` without
raising, the invoice number is exactly the stripped text of the first
`.//cbc:ID` element — the top-level `ID` of a standard invoice — and it is
non-empty whenever that source text is non-empty. -/
theorem std_ubl_parse_total :
    ∀ (inventory_service : Option PulgarinInventory) (s : String) (tree : XElem),
      fromstring s = some tree →
      containsSub "AttachedDocument" tree.tag = false →
      stdUblLinesOk tree = true →
      (∃ invoice, ubl_parse_invoice inventory_service s = .ok invoice)
    ∧ (∀ invoice, ubl_parse_invoice inventory_service s = .ok invoice →
        invoice.invoice_number = get_text tree [cbcD "ID"]
        ∧ (get_text tree [cbcD "ID"] ≠ "" → invoice.invoice_number ≠ "")) := by
  intro inventory_service s tree hfs hct hok
  obtain ⟨items, hitems⟩ := parseLines_ok inventory_service
    (findallPath tree [cacD "InvoiceLine"])
    (by
      intro l hl
      have := List.all_eq_true.mp hok l hl
      simp only [Bool.and_eq_true] at this
      exact ⟨this.1.1, this.1.2, this.2⟩)
  have hred : ubl_parse_invoice inventory_service s =
      parse_ubl_tree inventory_service tree := by
    unfold ubl_parse_invoice
    rw [hfs]
    dsimp only
    rw [hct]
    rfl
  have hmain : ∃ invoice, parse_ubl_tree inventory_service tree = .ok invoice ∧
      invoice.invoice_number = get_text tree [cbcD "ID"] := by
    unfold parse_ubl_tree
    rw [hitems]
    exact ⟨_, rfl, rfl⟩
  obtain ⟨inv₀, hinv₀, hnum₀⟩ := hmain
  refine ⟨⟨inv₀, by rw [hred]; exact hinv₀⟩, ?_⟩
  intro invoice hinv
  rw [hred, hinv₀] at hinv
  injection hinv with heq
  subst heq
  exact ⟨hnum₀, fun hne => hnum₀ ▸ hne⟩

set_option maxRecDepth 4096 in
/-- Witness for C9 at the concrete standard invoice `egStd`. -/
theorem std_ubl_parse_total_witness :
    (match ubl_parse_invoice none egStd with
      | .ok invoice => invoice.invoice_number
      | .error _ => "") = "FV-1001" := by
  obtain ⟨⟨invoice, hok⟩, hprop⟩ := std_ubl_parse_total none egStd _ rfl
    (by decide) (by decide)
  rw [hok]
  show invoice.invoice_number = "FV-1001"
  rw [(hprop invoice hok).1]
  decide

/-! ## C5: `AttachedDocument` wrap/unwrap round-trip -/

lemma head_not_pySpace {c : Char} {cs : List Char}
    (h : List.dropWhile isPySpace (c :: cs) = c :: cs) : isPySpace c = false := by
  by_contra hpa
  have hpa' : isPySpace c = true := by
    cases hb : isPySpace c
    · exact absurd hb hpa
    · rfl
  rw [List.dropWhile_cons, hpa'] at h
  simp only [if_true] at h
  have hle := (List.dropWhile_sublist (l := cs) (p := isPySpace)).length_le
  have := congrArg List.length h
  simp at this
  omega

lemma parseElement_not_lt (fuel : Nat) (scope : List (String × String))
    (c : Char) (cs : List Char) (h : c ≠ '<') :
    Xml.parseElement fuel scope (c :: cs) = none := by
  cases fuel with
  | zero => rfl
  | succ n =>
      rw [Xml.parseElement.eq_def]
      split
      · rename_i heq
        injection heq with h1 h2
        exact absurd h1 h
      · rfl

lemma fromstring_not_lt (s : String)
    (hstrip : s.data.dropWhile isPySpace = s.data)
    (hlt : ¬ (pyStartsWith "<" s) = true) :
    fromstring s = none := by
  cases hd : s.data with
  | nil =>
      unfold fromstring Xml.skipProlog
      rw [hd]
      rfl
  | cons c cs =>
      have hc : c ≠ '<' := by
        intro hceq
        apply hlt
        unfold pyStartsWith
        rw [hd, hceq]
        simp [List.isPrefixOf]
      have hnospace : List.dropWhile isPySpace (c :: cs) = c :: cs := by
        rw [← hd]
        exact hstrip
      have hnoprolog : ("<?xml".data.isPrefixOf (c :: cs)) = false := by
        simp only [List.isPrefixOf]
        show (('<' == c) && _) = false
        have : ('<' == c) = false := by
          cases hb : ('<' == c)
          · rfl
          · exact absurd (eq_of_beq hb).symm hc
        rw [this]
        rfl
      unfold fromstring Xml.skipProlog
      rw [hd]
      simp [hnospace, hnoprolog, parseElement_not_lt _ _ _ _ hc]

/-- **C5.**  Wrap/unwrap round-trip: whenever a document `w` parses as an
`AttachedDocument` whose `Description` text `txt` is truthy, the stripped
text `s := pyStrip txt` carries no literal CDATA markers (lxml resolves CDATA
during parsing), `s` contains the token `Invoice`, and the embedded document
is not itself an envelope, both parsers give the same result on `w` as on
`s` submitted directly — for the Standard-UBL parser and for the Somex
parser (which additionally verifies that `s` begins with an XML prolog or
open tag before re-parsing, failing in exactly the cases where direct
parsing fails). -/
theorem attached_document_roundtrip :
    ∀ (w txt : String) (inventory_service : Option PulgarinInventory),
      descRawText w = some txt →
      ¬ (pyStartsWith "<![CDATA[" (pyStrip txt)) = true →
      containsSub "Invoice" (pyStrip txt) = true →
      ((fromstring (pyStrip txt)).map
        (fun inner => containsSub "AttachedDocument" inner.tag)).getD false = false →
      ubl_parse_invoice inventory_service w =
        ubl_parse_invoice inventory_service (pyStrip txt)
    ∧ somex_parse_invoice_xml w = somex_parse_invoice_xml (pyStrip txt) := by
  intro w txt inventory_service hdesc hcdata htoken hinner
  unfold descRawText at hdesc
  cases hfs : fromstring w with
  | none =>
      rw [hfs] at hdesc
      exact absurd hdesc (by simp)
  | some t =>
      rw [hfs] at hdesc
      dsimp only at hdesc
      by_cases hct : (containsSub "AttachedDocument" t.tag) = true
      · rw [if_pos hct] at hdesc
        cases hfind : findPath t [cacD "Attachment", cacC "ExternalReference",
            cbcC "Description"] with
        | none =>
            rw [hfind] at hdesc
            exact absurd hdesc (by simp)
        | some d =>
            rw [hfind] at hdesc
            dsimp only at hdesc
            cases htext : d.text with
            | none =>
                rw [htext] at hdesc
                exact absurd hdesc (by simp)
            | some txt₀ =>
                rw [htext] at hdesc
                dsimp only at hdesc
                by_cases hne : txt₀ = ""
                · rw [if_pos hne] at hdesc
                  exact absurd hdesc (by simp)
                · rw [if_neg hne] at hdesc
                  have htxt : txt₀ = txt := by
                    injection hdesc
                  subst htxt
                  constructor
                  · unfold ubl_parse_invoice
                    rw [hfs]
                    dsimp only
                    rw [if_pos hct, hfind]
                    dsimp only
                    rw [htext]
                    dsimp only
                    rw [if_pos (show txt₀ ≠ "" from hne)]
                    rw [if_neg hcdata]
                    cases hfs₂ : fromstring (pyStrip txt₀) with
                    | none => rfl
                    | some t₂ =>
                        have hct₂ : ¬ (containsSub "AttachedDocument" t₂.tag) = true := by
                          rw [hfs₂] at hinner
                          simpa using hinner
                        dsimp only
                        rw [if_neg hct₂]
                  · unfold somex_parse_invoice_xml extract_embedded_invoice
                    rw [hfs]
                    dsimp only
                    rw [if_pos hct, hfind]
                    dsimp only
                    rw [htext]
                    dsimp only
                    rw [if_neg hne]
                    by_cases hstart : (pyStartsWith "<" (pyStrip txt₀)) = true
                    · rw [if_neg (by
                        intro hcontra
                        exact hcontra.2 hstart)]
                      rw [if_neg (not_not_intro htoken)]
                      cases hfs₂ : fromstring (pyStrip txt₀) with
                      | none => rfl
                      | some t₂ =>
                          have hct₂ : ¬ (containsSub "AttachedDocument" t₂.tag) = true := by
                            rw [hfs₂] at hinner
                            simpa using hinner
                          dsimp only
                          rw [if_neg hct₂]
                    · have hstart₂ : ¬ (pyStartsWith "<?xml" (pyStrip txt₀)) = true := by
                        intro hcontra
                        apply hstart
                        unfold pyStartsWith at hcontra ⊢
                        cases hpd : (pyStrip txt₀).data with
                        | nil =>
                            rw [hpd] at hcontra
                            simp [List.isPrefixOf] at hcontra
                        | cons c cs =>
                            rw [hpd] at hcontra
                            simp only [List.isPrefixOf, Bool.and_eq_true] at hcontra ⊢
                            exact ⟨hcontra.1, trivial⟩
                      rw [if_pos ⟨hstart₂, hstart⟩]
                      have hfs₂ : fromstring (pyStrip txt₀) = none := by
                        apply fromstring_not_lt
                        · show List.dropWhile isPySpace (pyStripL txt₀.data) = _
                          exact dropWhile_pyStripL txt₀.data
                        · exact hstart
                      rw [hfs₂]
      · rw [if_neg hct] at hdesc
        exact absurd hdesc (by simp)

set_option maxRecDepth 8192 in
/-- Witness for C5: the concrete wrapped document `egWrapped` parses to the
same invoice as its embedded `egInner` submitted directly, under both
parsers. -/
theorem attached_document_roundtrip_witness :
    ubl_parse_invoice none egWrapped = ubl_parse_invoice none (pyStrip egInner)
  ∧ somex_parse_invoice_xml egWrapped = somex_parse_invoice_xml (pyStrip egInner) :=
  attached_document_roundtrip egWrapped egInner none rfl (by decide) (by decide)
    (by decide)

/-! ## C6: duplicate handling inside one ZIP batch -/

set_option maxRecDepth 16384 in
set_option maxHeartbeats 4000000 in
unseal Rat.mul Rat.inv in
/-- **C6 counterexample.**  A ZIP archive holding two byte-identical copies
of one invoice plus one distinct invoice, processed against an empty ledger:
`process_zip_file` reads the ledger but never writes it, so the duplicate is
NOT skipped — all three entries parse, three canonical invoices are emitted
(not the claimed two), and nothing is skipped.  Only the caller's
post-batch marking loop collapses the duplicate, leaving two ledger
records. -/
theorem zip_duplicate_not_skipped :
    ((process_zip_file [] egZipFiles).total_xmls,
     (process_zip_file [] egZipFiles).skipped_xmls,
     (process_zip_file [] egZipFiles).invoices.length,
     (mark_all_processed [] (process_zip_file [] egZipFiles).invoices
       "somex.zip" "out.xlsx").length) = (3, 0, 3, 2)
  ∧ ¬ ((process_zip_file [] egZipFiles).invoices.length = 2) := by
  refine ⟨rfl, ?_⟩
  intro hc
  have h3 : (process_zip_file [] egZipFiles).invoices.length = 3 := rfl
  rw [hc] at h3
  exact absurd h3 (by decide)

end MedellinSae
